import Mathlib

/-!
Shallow embedding of the core decision pipeline of the trading bot
(market-data ingest, regime engine, strategy planner, risk service,
execution engine, position manager, event bus, canonical hashing),
together with theorems settling the specification claims C1..C10.

Floating-point arithmetic of the source is embedded as exact rational
arithmetic (ℚ); machine timestamps are natural numbers of milliseconds.
-/

set_option maxRecDepth 8000
set_option maxHeartbeats 1000000

namespace TradingBot

/-- Side of a trade (`sideSchema` in `domain/models.ts`). -/
inductive Side where
  | Long
  | Short
deriving DecidableEq, Repr

/-- Market regime (`regimeSchema` in `domain/models.ts`). -/
inductive Regime where
  | Compression
  | Trend
  | Range
  | ExpansionChaos
deriving DecidableEq, Repr

/-- Strategy engine selector (`engineSchema` in `domain/models.ts`). -/
inductive EngineKind where
  | Breakout
  | Continuation
  | Reversal
  | Defensive
deriving DecidableEq, Repr

/-- Feature vector (`featureVectorSchema` in `domain/models.ts`), numeric
fields embedded as ℚ. -/
structure FeatureVector where
  symbol : String
  timeframe : String
  closeTime : ℕ
  logReturn : ℚ
  atrPct : ℚ
  ewmaSigma : ℚ
  sigmaNorm : ℚ
  volPct5m : ℚ
  bbWidthPct : ℚ
  bbWidthPercentile : ℚ
  ema20 : ℚ
  ema50 : ℚ
  ema200 : ℚ
  ema50Slope : ℚ
  volumePct : ℚ
  volumePercentile : ℚ
deriving DecidableEq, Repr

/-- Regime decision (`regimeDecisionSchema` in `domain/models.ts`). -/
structure RegimeDecision where
  symbol : String
  closeTime5m : ℕ
  regime : Regime
  engine : EngineKind
  defensive : Bool
deriving DecidableEq, Repr

/-! ## Indicators: percentile rank (`indicators/percentiles.ts`)

`percentileRank` throws on an empty sample in the source; the fallible
case is embedded as `Option`. -/

/-- Percentile rank of `value` within `values`: count of elements ≤ `value`
over a sorted copy, divided by the sample size, times 100. `none` models the
exception thrown on an empty sample. -/
def percentileRank (values : List ℚ) (value : ℚ) : Option ℚ :=
  if values.isEmpty then none
  else
    let sorted := values.insertionSort (· ≤ ·)
    some (((sorted.countP (fun current => current ≤ value) : ℚ) / (sorted.length : ℚ)) * 100)

/-! ## Regime engine (`classifyRegime`, `mapRegimeToEngine`,
`RegimeEngine.processFeature`) -/

/-- Percentile context handed to `classifyRegime`. -/
structure RegimeContext where
  sigmaNormPct : ℚ
  bbWidthPctile : ℚ
  slopeAbsPctile : ℚ
deriving DecidableEq, Repr

/-- Classification thresholds of the regime engine. -/
structure RegimeThresholds where
  compressionPercentileThreshold : ℚ
  trendPercentileThreshold : ℚ
  expansionPercentileThreshold : ℚ
deriving DecidableEq, Repr

/-- The ordered regime classifier (`classifyRegime` in the regime engine
module). -/
def classifyRegime (context : RegimeContext) (thresholds : RegimeThresholds) : Regime :=
  if context.sigmaNormPct ≤ thresholds.compressionPercentileThreshold ∧
      context.bbWidthPctile ≤ thresholds.compressionPercentileThreshold then
    Regime.Compression
  else if context.sigmaNormPct ≥ thresholds.expansionPercentileThreshold ∧
      context.bbWidthPctile ≥ thresholds.expansionPercentileThreshold then
    Regime.ExpansionChaos
  else if context.sigmaNormPct ≥ thresholds.trendPercentileThreshold ∧
      context.slopeAbsPctile ≥ thresholds.trendPercentileThreshold then
    Regime.Trend
  else
    Regime.Range

/-- Regime-to-engine mapping (`mapRegimeToEngine`). -/
def mapRegimeToEngine (regime : Regime) : EngineKind :=
  if regime = Regime.Compression then EngineKind.Breakout
  else if regime = Regime.Trend then EngineKind.Continuation
  else if regime = Regime.Range then EngineKind.Reversal
  else EngineKind.Defensive

/-- Regime engine options with their `DEFAULTS` values. -/
structure RegimeEngineOpts where
  windowSize : ℕ := 100
  defensiveVolumePercentileThreshold : ℚ := 90
  compressionPercentileThreshold : ℚ := 25
  trendPercentileThreshold : ℚ := 65
  expansionPercentileThreshold : ℚ := 85
deriving DecidableEq, Repr

/-- The `DEFAULTS` constant of the regime engine module. -/
def regimeDefaults : RegimeEngineOpts := {}

/-- Ring-buffer update of `processFeature`: push the feature, then drop the
oldest entry if the window size is exceeded. -/
def pushWindow (history : List FeatureVector) (feature : FeatureVector) (windowSize : ℕ) :
    List FeatureVector :=
  let pushed := history ++ [feature]
  if windowSize < pushed.length then pushed.drop 1 else pushed

/-- Percentile context of the latest feature within the ring (`buildContext`
in the regime engine module). `none` models the (unreachable after a push)
empty-sample exception of `percentileRank`. -/
def buildContext (history : List FeatureVector) (latest : FeatureVector) :
    Option RegimeContext := do
  let sigmaNormPct ← percentileRank (history.map (·.sigmaNorm)) latest.sigmaNorm
  let bbWidthPctile ← percentileRank (history.map (·.bbWidthPct)) latest.bbWidthPct
  let slopeAbsPctile ← percentileRank (history.map (fun item => |item.ema50Slope|)) |latest.ema50Slope|
  pure { sigmaNormPct, bbWidthPctile, slopeAbsPctile }

/-- Pure core of `RegimeEngine.processFeature`: ring-buffer update, context,
classification, defensive flag and engine choice, producing the decision that
is upserted and published. -/
def processFeature (opts : RegimeEngineOpts) (prevHistory : List FeatureVector)
    (feature : FeatureVector) : Option RegimeDecision := do
  let history := pushWindow prevHistory feature opts.windowSize
  let context ← buildContext history feature
  let classified := classifyRegime context
    { compressionPercentileThreshold := opts.compressionPercentileThreshold
      trendPercentileThreshold := opts.trendPercentileThreshold
      expansionPercentileThreshold := opts.expansionPercentileThreshold }
  let defensive := opts.defensiveVolumePercentileThreshold ≤ feature.volumePercentile
  let engine := if defensive then EngineKind.Defensive else mapRegimeToEngine classified
  pure { symbol := feature.symbol
         closeTime5m := feature.closeTime
         regime := classified
         engine := engine
         defensive := defensive }

/-- Classification thresholds taken from the regime engine `DEFAULTS`. -/
def defaultThresholds : RegimeThresholds :=
  { compressionPercentileThreshold := regimeDefaults.compressionPercentileThreshold
    trendPercentileThreshold := regimeDefaults.trendPercentileThreshold
    expansionPercentileThreshold := regimeDefaults.expansionPercentileThreshold }

/-- Concrete 5m feature used to instantiate regime-engine theorems. -/
def sampleFeature : FeatureVector :=
  { symbol := "BTCUSDT"
    timeframe := "5m"
    closeTime := 1734303000000
    logReturn := 0
    atrPct := 1
    ewmaSigma := 1/5
    sigmaNorm := 1
    volPct5m := 1
    bbWidthPct := 4/5
    bbWidthPercentile := 20
    ema20 := 100
    ema50 := 101
    ema200 := 99
    ema50Slope := 1/100
    volumePct := 100
    volumePercentile := 95 }

/-- Decision produced by `processFeature` on `sampleFeature` with defaults. -/
def sampleDecision : RegimeDecision :=
  { symbol := "BTCUSDT"
    closeTime5m := 1734303000000
    regime := Regime.ExpansionChaos
    engine := EngineKind.Defensive
    defensive := true }

/-! ## Trade plans (`tradePlanSchema` plus the `confidence` and
`paramsVersionId` fields that the engines attach and the planner reads) -/

/-- Trade plan. `tradePlanSchema` lists the first ten fields; the running
code additionally carries `paramsVersionId` (hard-coded by the engines) and
an optional `confidence` that the planner normalizes. -/
structure TradePlan where
  symbol : String
  side : Side
  engine : EngineKind
  entryPrice : ℚ
  stopPct : ℚ
  tpModel : String
  leverage : ℚ
  marginPct : ℚ
  expiresAt : ℕ
  reason : String
  paramsVersionId : String
  confidence : Option ℚ
deriving DecidableEq, Repr

/-! ## Risk service (`risk/riskService.ts`) -/

/-- Risk configuration (`RiskConfig` with its `DEFAULT_CONFIG` values). -/
structure RiskConfig where
  perSymbolCooldownMs : ℤ := 300000
  perEngineCooldownMs : ℤ := 120000
  minQty : ℚ := 1/1000
  qtyStep : ℚ := 1/1000
  maxLeverageDefensive : ℚ := 2
deriving DecidableEq, Repr

/-- The `DEFAULT_CONFIG` constant of the risk service. -/
def riskDefaults : RiskConfig := {}

/-- Results of the repository and portfolio-service queries made by
`evaluatePlan`: open-position counts, the portfolio caps behind
`getMaxOpenPositions`, and the two cooldown timestamps. -/
structure RiskQueryCtx where
  openBySymbol : ℕ
  openTotal : ℕ
  maxOpenPositions : ℕ
  maxOpenPositionsDefensive : ℕ
  latestCloseTsForSymbol : Option ℤ
  latestEngineSignalTs : Option ℤ
deriving DecidableEq, Repr

/-- Risk decision (`RiskDecision` in `risk/riskService.ts`). -/
inductive RiskDecision where
  | approve (qty : ℚ) (finalLeverage : ℚ) (plan : TradePlan)
  | reject (reason : String) (plan : TradePlan)
deriving DecidableEq, Repr

/-- The JS test `ts && nowMs - ts < cooldownMs` (a `null` or `0` timestamp is
falsy). -/
def cooldownActive (latest : Option ℤ) (nowMs cooldownMs : ℤ) : Bool :=
  match latest with
  | none => false
  | some ts => if ts ≠ 0 ∧ nowMs - ts < cooldownMs then true else false

/-- Raw quantity (`computeQty`): equity · (marginPct/100) · leverage divided
by `max(price, 1e-8)`. The caller always uses the default equity of 100. -/
def computeQty (marginPct leverage price equity : ℚ) : ℚ :=
  let notional := equity * (marginPct / 100) * leverage
  notional / max price (1/100000000)

/-- Step-normalized quantity (`normalizeQty`): floor to a multiple of
`max(step, 1e-12)`. -/
def normalizeQty (qty step : ℚ) : ℚ :=
  let safeStep := max step (1/1000000000000)
  let units := Rat.floor (qty / safeStep)
  (units : ℚ) * safeStep

/-- `RiskService.evaluatePlan`: ordered gates (per-symbol uniqueness, total
cap, symbol cooldown, engine cooldown), then defensive leverage cap and
quantity sizing. Repository lookups are supplied through `ctx`. -/
def evaluatePlan (config : RiskConfig) (ctx : RiskQueryCtx) (plan : TradePlan)
    (regime : RegimeDecision) (nowMs : ℤ) : RiskDecision :=
  if 1 ≤ ctx.openBySymbol then
    RiskDecision.reject "max 1 open position per symbol exceeded" plan
  else
    let allowedTotal := if regime.defensive then ctx.maxOpenPositionsDefensive
      else ctx.maxOpenPositions
    if allowedTotal ≤ ctx.openTotal then
      RiskDecision.reject (s!"max open positions reached ({allowedTotal})") plan
    else if cooldownActive ctx.latestCloseTsForSymbol nowMs config.perSymbolCooldownMs then
      RiskDecision.reject "symbol cooldown active" plan
    else if cooldownActive ctx.latestEngineSignalTs nowMs config.perEngineCooldownMs then
      RiskDecision.reject "engine cooldown active" plan
    else
      let finalLeverage := if regime.defensive then min plan.leverage config.maxLeverageDefensive
        else plan.leverage
      let qtyRaw := computeQty plan.marginPct finalLeverage plan.entryPrice 100
      let qty := normalizeQty qtyRaw config.qtyStep
      if qty < config.minQty then
        RiskDecision.reject "computed qty below minQty" plan
      else
        RiskDecision.approve qty finalLeverage plan

/-- Concrete trade plan used to instantiate theorems. -/
def samplePlan : TradePlan :=
  { symbol := "BTCUSDT"
    side := Side.Long
    engine := EngineKind.Breakout
    entryPrice := 100
    stopPct := 1
    tpModel := "A"
    leverage := 3
    marginPct := 10
    expiresAt := 1734303600000
    reason := "validated breakout continuation"
    paramsVersionId := "baseline"
    confidence := some (1/2) }

/-- `StrategyPlanner.normalizePlan` (`strategy/strategyPlanner.ts`): clamps
confidence into [0,1] (defaulting a missing confidence to the planner's
`defaultConfidence`, 0.6 unless configured) and bumps `expiresAt` to at least
`Date.now()`. All other fields, `paramsVersionId` included, are carried over
unchanged by the spread. -/
def normalizePlan (plan : TradePlan) (now : ℕ) (defaultConfidence : ℚ) : TradePlan :=
  let confidence := max 0 (min 1 (plan.confidence.getD defaultConfidence))
  { plan with
    confidence := some confidence
    expiresAt := max now plan.expiresAt }

/-- Concrete risk-query context with no open positions and no cooldowns. -/
def sampleRiskCtx : RiskQueryCtx :=
  { openBySymbol := 0
    openTotal := 0
    maxOpenPositions := 5
    maxOpenPositionsDefensive := 2
    latestCloseTsForSymbol := none
    latestEngineSignalTs := none }

/-! ## Position manager (`portfolio/positionManager.ts`,
`portfolio/stateMachine.ts`) -/

/-- Lifecycle states (`PositionLifecycleState`). -/
inductive PositionLifecycleState where
  | NEUTRAL
  | ARMED
  | ENTERING
  | IN_POSITION
  | COOLDOWN
  | DEFENSIVE
deriving DecidableEq, Repr

/-- Lifecycle events accepted by `nextState`. -/
inductive PositionEvent where
  | SIGNAL_ARMED
  | ORDER_SUBMITTED
  | ORDER_FILLED
  | POSITION_CLOSED
  | COOLDOWN_EXPIRED
  | DEFENSIVE_ON
  | DEFENSIVE_OFF
deriving DecidableEq, Repr

/-- The total transition table (`nextState`); unlisted pairs are identity. -/
def nextState (current : PositionLifecycleState) (event : PositionEvent) :
    PositionLifecycleState :=
  if event = PositionEvent.DEFENSIVE_ON then PositionLifecycleState.DEFENSIVE
  else if current = PositionLifecycleState.DEFENSIVE ∧ event = PositionEvent.DEFENSIVE_OFF then
    PositionLifecycleState.NEUTRAL
  else if current = PositionLifecycleState.NEUTRAL ∧ event = PositionEvent.SIGNAL_ARMED then
    PositionLifecycleState.ARMED
  else if current = PositionLifecycleState.ARMED ∧ event = PositionEvent.ORDER_SUBMITTED then
    PositionLifecycleState.ENTERING
  else if current = PositionLifecycleState.ENTERING ∧ event = PositionEvent.ORDER_FILLED then
    PositionLifecycleState.IN_POSITION
  else if current = PositionLifecycleState.IN_POSITION ∧ event = PositionEvent.POSITION_CLOSED then
    PositionLifecycleState.COOLDOWN
  else if current = PositionLifecycleState.COOLDOWN ∧ event = PositionEvent.COOLDOWN_EXPIRED then
    PositionLifecycleState.NEUTRAL
  else current

/-- In-memory managed position (`ManagedPosition`). -/
structure ManagedPosition where
  id : String
  symbol : String
  side : Side
  entryPrice : ℚ
  initialStopPrice : ℚ
  stopPrice : ℚ
  qty : ℚ
  remainingQty : ℚ
  state : PositionLifecycleState
  realizedR : ℚ
  took1R : Bool
  took2R : Bool
  trailingAnchor : ℚ
  atrPct : ℚ
  paramsVersionId : String
deriving DecidableEq, Repr

/-- Position-manager configuration (`PositionManagerConfig` with its
`DEFAULT_CONFIG` values). -/
structure PositionManagerConfig where
  trailingAtrMultiple : ℚ := 1
  hardExitOnRange : Bool := false
  hardExitOnExpansionChaos : Bool := true
  reduceRiskOnRangePct : ℚ := 50
deriving DecidableEq, Repr

/-- The `DEFAULT_CONFIG` constant of the position manager. -/
def positionDefaults : PositionManagerConfig := {}

/-- Observable mutation performed while handling a price: a partial-exit
fill (audited) or a position close (published on the bus). -/
inductive PositionAction where
  | partialFill (reason : String) (qtyToExit : ℚ) (fillPrice : ℚ)
  | closed (reason : String) (fillPrice : ℚ)
deriving DecidableEq, Repr

/-- Risk per unit at entry: `max(1e-8, |entry − initialStop|)`. -/
def riskPerUnit (pos : ManagedPosition) : ℚ :=
  max (1/100000000) |pos.entryPrice - pos.initialStopPrice|

/-- Profit per unit at `price`: `price − entry` for Long, `entry − price`
for Short. -/
def pnlPerUnit (pos : ManagedPosition) (price : ℚ) : ℚ :=
  if pos.side = Side.Long then price - pos.entryPrice else pos.entryPrice - price

/-- R-multiple of the open position at `price`. -/
def rMultiple (pos : ManagedPosition) (price : ℚ) : ℚ :=
  pnlPerUnit pos price / riskPerUnit pos

/-- `PositionManager.closePosition`: zero the remaining quantity and step the
state machine with POSITION_CLOSED, reporting the close action. -/
def closePosition (pos : ManagedPosition) (fillPrice : ℚ) (reason : String) :
    ManagedPosition × PositionAction :=
  ({ pos with
      remainingQty := 0
      state := nextState PositionLifecycleState.IN_POSITION PositionEvent.POSITION_CLOSED },
    PositionAction.closed reason fillPrice)

/-- `PositionManager.partialExit`: deduct `min(remainingQty, qty·fraction)`,
accrue realizedR, and close with reason "all partial exits completed" once
the remainder drops to ≤ 1e-10. A non-positive exit quantity is a no-op. -/
def partialExit (pos : ManagedPosition) (fraction fillPrice : ℚ) (reason : String) :
    ManagedPosition × List PositionAction :=
  let qtyToExit := min pos.remainingQty (pos.qty * fraction)
  if qtyToExit ≤ 0 then (pos, [])
  else
    let pos1 := { pos with remainingQty := pos.remainingQty - qtyToExit }
    let pos2 := { pos1 with
      realizedR := pos1.realizedR + pnlPerUnit pos fillPrice / riskPerUnit pos * (qtyToExit / pos.qty) }
    if pos2.remainingQty ≤ 1/10000000000 then
      let closed := closePosition pos2 fillPrice "all partial exits completed"
      (closed.1, [PositionAction.partialFill reason qtyToExit fillPrice, closed.2])
    else
      (pos2, [PositionAction.partialFill reason qtyToExit fillPrice])

/-- `PositionManager.updateTrailingStop`: advance the anchor with the candle
extreme (or price), and ratchet the stop toward the favorable side only. -/
def updateTrailingStop (config : PositionManagerConfig) (pos : ManagedPosition)
    (price : ℚ) (candleHigh candleLow : Option ℚ) : ManagedPosition :=
  let anchor := if pos.side = Side.Long then candleHigh.getD price else candleLow.getD price
  let trailingAnchor := if pos.side = Side.Long then max pos.trailingAnchor anchor
    else min pos.trailingAnchor anchor
  let trailingDistance := pos.atrPct / 100 * pos.entryPrice * config.trailingAtrMultiple
  let candidate := if pos.side = Side.Long then trailingAnchor - trailingDistance
    else trailingAnchor + trailingDistance
  { pos with
      trailingAnchor := trailingAnchor
      stopPrice := if pos.side = Side.Long then max pos.stopPrice candidate
        else min pos.stopPrice candidate }

/-- The `!took1R && rMultiple >= 1` block of `onPrice`: half-size partial
exit, then the took1R flag is set. -/
def take1R (pos : ManagedPosition) (price r : ℚ) : ManagedPosition × List PositionAction :=
  if pos.took1R = false ∧ 1 ≤ r then
    let e := partialExit pos (1/2) price "+1R partial"
    ({ e.1 with took1R := true }, e.2)
  else (pos, [])

/-- The `!took2R && rMultiple >= 2` block of `onPrice`: 0.3-size partial
exit, then the took2R flag is set. -/
def take2R (pos : ManagedPosition) (price r : ℚ) : ManagedPosition × List PositionAction :=
  if pos.took2R = false ∧ 2 ≤ r then
    let e := partialExit pos (3/10) price "+2R partial"
    ({ e.1 with took2R := true }, e.2)
  else (pos, [])

/-- The `if (took2R) updateTrailingStop` block of `onPrice`. -/
def trailStage (config : PositionManagerConfig) (pos : ManagedPosition) (price : ℚ)
    (candleHigh candleLow : Option ℚ) : ManagedPosition :=
  if pos.took2R = true then updateTrailingStop config pos price candleHigh candleLow else pos

/-- The stop-out check of `onPrice`: Long and price ≤ stop (Short and
price ≥ stop) closes with reason "stop hit". -/
def stopOutStage (pos : ManagedPosition) (price : ℚ) : ManagedPosition × List PositionAction :=
  if (pos.side = Side.Long ∧ price ≤ pos.stopPrice) ∨
      (pos.side = Side.Short ∧ pos.stopPrice ≤ price) then
    let c := closePosition pos price "stop hit"
    (c.1, [c.2])
  else (pos, [])

/-- `PositionManager.onPrice` for one managed position: R-multiple partial
exits at +1R (half size) and +2R (0.3 size), trailing-stop update once
took2R, then the stop-out check. Only IN_POSITION positions react. The
R-multiple is computed once, up front, exactly as in the source. -/
def onPrice (config : PositionManagerConfig) (pos : ManagedPosition) (price : ℚ)
    (candleHigh candleLow : Option ℚ) : ManagedPosition × List PositionAction :=
  if pos.state ≠ PositionLifecycleState.IN_POSITION then (pos, [])
  else
    let r := rMultiple pos price
    let s1 := take1R pos price r
    let s2 := take2R s1.1 price r
    let s3 := trailStage config s2.1 price candleHigh candleLow
    let s4 := stopOutStage s3 price
    (s4.1, s1.2 ++ s2.2 ++ s4.2)

/-- Fold of `onPrice` over a sequence of (price, candleHigh, candleLow)
ticks, accumulating the emitted actions. -/
def runPrices (config : PositionManagerConfig) (pos : ManagedPosition)
    (steps : List (ℚ × Option ℚ × Option ℚ)) : ManagedPosition × List PositionAction :=
  match steps with
  | [] => (pos, [])
  | (price, hi, lo) :: rest =>
    let step := onPrice config pos price hi lo
    let tail := runPrices config step.1 rest
    (tail.1, step.2 ++ tail.2)

/-- Whether an action is a partial-exit fill carrying the given reason. -/
def exitMatches (reason : String) (action : PositionAction) : Bool :=
  match action with
  | PositionAction.partialFill r _ _ => r = reason
  | PositionAction.closed _ _ => false

/-- Number of partial-exit fills carrying the given reason. -/
def countExits (reason : String) (acts : List PositionAction) : ℕ :=
  acts.countP (exitMatches reason)

/-- Concrete managed position: spec scenario 5 (entry 100, stop 99, qty 1,
atrPct 1). -/
def samplePosition : ManagedPosition :=
  { id := "pos_001"
    symbol := "BTCUSDT"
    side := Side.Long
    entryPrice := 100
    initialStopPrice := 99
    stopPrice := 99
    qty := 1
    remainingQty := 1
    state := PositionLifecycleState.IN_POSITION
    realizedR := 0
    took1R := false
    took2R := false
    trailingAnchor := 100
    atrPct := 1
    paramsVersionId := "baseline" }

/-- The sample position after both R-multiple exits: trailing is active with
anchor 102. -/
def sampleTrailing : ManagedPosition :=
  { samplePosition with took1R := true, took2R := true, trailingAnchor := 102 }

/-! ## Event bus (`events/eventBus.ts`), queued-emit mode

Handlers are modelled by their synchronous effect `handle : E → List E`, the
list of events a dispatched handler re-emits (in order) while it runs. The
mutable bus state is the FIFO queue, the `isFlushingQueue` flag and the
dispatch log. Recursion between `emit`, `flushQueue` and the `while` drain
loop is bounded by explicit fuel. -/

/-- Mutable state of the queued-mode bus: the pending queue, the
single-flusher flag, and the log of dispatched events. -/
structure BusState (E : Type) where
  queue : List E
  isFlushingQueue : Bool
  dispatched : List E
deriving DecidableEq, Repr

namespace EventBus

mutual

/-- `EventBus.emit` in queued mode: push the event, then `flushQueue`. -/
def emit {E : Type} (handle : E → List E) (fuel : ℕ) (e : E) (st : BusState E) : BusState E :=
  flushQueue handle fuel { st with queue := st.queue ++ [e] }
termination_by (fuel, 2)

/-- `EventBus.flushQueue`: return at once when a flusher is already running,
otherwise set the flag, drain, and finally clear the flag. -/
def flushQueue {E : Type} (handle : E → List E) (fuel : ℕ) (st : BusState E) : BusState E :=
  if st.isFlushingQueue then st
  else { drainLoop handle fuel { st with isFlushingQueue := true } with isFlushingQueue := false }
termination_by (fuel, 1)

/-- The `while (queue.length > 0)` loop of `flushQueue`: shift the front
event, dispatch it (its handlers re-emit through `emit`), repeat. -/
def drainLoop {E : Type} (handle : E → List E) (fuel : ℕ) (st : BusState E) : BusState E :=
  match fuel with
  | 0 => st
  | f + 1 =>
    match st.queue with
    | [] => st
    | e :: rest =>
      drainLoop handle f
        ((handle e).foldl (fun s ev => emit handle f ev s)
          { st with queue := rest, dispatched := st.dispatched ++ [e] })
termination_by (fuel, 0)

end

/-- `EventBus.getPendingCount`. -/
def getPendingCount {E : Type} (st : BusState E) : ℕ := st.queue.length

/-- Specification drain order: FIFO dispatch where each dispatched event
appends its handler re-emissions to the back of the queue; `none` when the
fuel does not suffice to empty the queue. -/
def drainSpec {E : Type} (handle : E → List E) : ℕ → List E → Option (List E)
  | _, [] => some []
  | 0, _ :: _ => none
  | fuel + 1, e :: rest =>
    (drainSpec handle fuel (rest ++ handle e)).map (fun tr => e :: tr)

end EventBus

/-- Concrete handler effect for the bus witness: event 0 re-emits 1 and 2,
event 1 re-emits 3, everything else is silent. -/
def busHandleExample : ℕ → List ℕ :=
  fun n => if n = 0 then [1, 2] else if n = 1 then [3] else []

/-! ## Market-data ingest (`MarketDataService`) -/

/-- Candle value (`candleSchema`); `openPrice` renders the source's `open`
field, which is a reserved word in Lean. -/
structure Candle where
  symbol : String
  timeframe : String
  closeTime : ℕ
  openPrice : ℚ
  high : ℚ
  low : ℚ
  close : ℚ
  volume : ℚ
deriving DecidableEq, Repr

/-- `timeframeToMs`: 1m ↦ 60 000 ms, otherwise (5m) 300 000 ms. -/
def timeframeToMs (timeframe : String) : ℕ :=
  if timeframe = "1m" then 60000 else 300000

/-- The indexed loop of `MarketDataService.checkIntegrity`, carrying the set
of already-seen closeTimes and the previous closeTime. -/
def integrityLoop (intervalMs : ℕ) (seen : List ℕ) (prev : Option ℕ) :
    List Candle → Option String
  | [] => none
  | c :: rest =>
    let cur := c.closeTime
    if cur ∈ seen then some s!"Duplicate closeTime detected: {cur}"
    else
      match prev with
      | none => integrityLoop intervalMs (cur :: seen) (some cur) rest
      | some p =>
        if cur < p then some s!"Out-of-order closeTime detected: {p} -> {cur}"
        else if intervalMs < cur - p then
          some s!"Gap detected between candles: {p} -> {cur}"
        else integrityLoop intervalMs (cur :: seen) (some cur) rest

/-- `MarketDataService.checkIntegrity`: duplicate, out-of-order, then gap
check over the normalized batch; `none` means the batch is clean. -/
def checkIntegrity (candles : List Candle) (timeframe : String) : Option String :=
  integrityLoop (timeframeToMs timeframe) [] none candles

/-- Audit-event table row as written by `recordIntegrityFailure`. -/
structure AuditRow where
  category : String
  action : String
  actor : String
  reason : String
deriving DecidableEq, Repr

/-- Events published on the bus during a poll. -/
inductive BusEvent where
  | candleClosed (candle : Candle)
  | auditEvent (step level message : String)
deriving DecidableEq, Repr

/-- Outcome of polling one symbol: candles persisted, audit rows written,
bus events published. -/
structure PollOutcome where
  persisted : List Candle
  auditRows : List AuditRow
  busEvents : List BusEvent
deriving DecidableEq, Repr

/-- The per-candle persistence loop of `poll` on a clean batch: skip candles
already stored (keyed by symbol, timeframe, closeTime), persist the rest and
publish `candle.closed` for each finalized one (closeTime ≤ now). -/
def persistLoop (db : List (String × String × ℕ)) (now : ℕ) :
    List Candle → List Candle × List BusEvent
  | [] => ([], [])
  | c :: rest =>
    if (c.symbol, c.timeframe, c.closeTime) ∈ db then persistLoop db now rest
    else
      let tail := persistLoop ((c.symbol, c.timeframe, c.closeTime) :: db) now rest
      (c :: tail.1,
        (if c.closeTime ≤ now then [BusEvent.candleClosed c] else []) ++ tail.2)

/-- `MarketDataService.poll` for one symbol, applied to the normalized
kline batch: on an integrity failure, persist nothing, write one audit row
with category `market_data_integrity` and publish exactly one `audit.event`
carrying the failure message; otherwise run the persistence loop. -/
def pollSymbol (db : List (String × String × ℕ)) (now : ℕ) (timeframe : String)
    (normalized : List Candle) : PollOutcome :=
  match checkIntegrity normalized timeframe with
  | some reason =>
    { persisted := []
      auditRows := [{ category := "market_data_integrity", action := "poll_failed",
                      actor := "market_data_service", reason := reason }]
      busEvents := [BusEvent.auditEvent "marketData.integrity" "error" reason] }
  | none =>
    let result := persistLoop db now normalized
    { persisted := result.1, auditRows := [], busEvents := result.2 }

/-- Two sample 1m candles whose closeTimes are 180 000 ms apart (spec
scenario 7). -/
def gapCandle1 : Candle :=
  { symbol := "BTCUSDT", timeframe := "1m", closeTime := 60000
    openPrice := 100, high := 110, low := 90, close := 105, volume := 10 }

/-- Second gap candle, 180 000 ms after `gapCandle1`. -/
def gapCandle2 : Candle :=
  { symbol := "BTCUSDT", timeframe := "1m", closeTime := 240000
    openPrice := 105, high := 112, low := 95, close := 108, volume := 12 }

/-! ## Canonical hashing (`domain/models.ts`: `stableStringify`,
`hashObject`)

Structured values are embedded as a JSON-like inductive. Numeric leaves are
exact rationals; an integer renders as in JSON, and the (unused by the
repository's hashed payloads) non-integer rendering is an injective
numerator/denominator form abstracting JS float printing. Strings hashed by
the repository are ASCII, so UTF-8 encoding is byte-per-character. -/

/-- JSON-compatible structured value. -/
inductive JVal where
  | null
  | bool (b : Bool)
  | num (q : ℚ)
  | str (s : String)
  | arr (items : List JVal)
  | obj (entries : List (String × JVal))

/-- Rendering of a numeric leaf (`JSON.stringify` on a number). -/
def renderNum (q : ℚ) : String :=
  if q.den = 1 then toString q.num else toString q.num ++ "/" ++ toString q.den

/-- Escaping of one character inside a JSON string literal. -/
def jsonEscapeChar (ch : Char) : String :=
  if ch = '"' then "\\\"" else if ch = '\\' then "\\\\" else String.singleton ch

/-- `JSON.stringify` of a string: quoted and escaped. -/
def jsonString (s : String) : String :=
  "\"" ++ String.join (s.data.map jsonEscapeChar) ++ "\""

/-- Rendering of one serialized object entry: `JSON.stringify(key) + ":" +
serialized value`. -/
def renderEntry (kv : String × String) : String :=
  jsonString kv.1 ++ ":" ++ kv.2

/-- Lexicographic code-point comparison of character lists. -/
def charListLe : List Char → List Char → Bool
  | [], _ => true
  | _ :: _, [] => false
  | a :: as, b :: bs =>
    if a.toNat < b.toNat then true
    else if b.toNat < a.toNat then false
    else charListLe as bs

/-- Code-point string comparison (what `localeCompare` computes on the ASCII
keys hashed by the repository). -/
def keyLe (a b : String) : Bool := charListLe a.data b.data

/-- Key sort of object entries (the `Object.entries(value).sort` by
`localeCompare`). -/
def sortByKey {α : Type} (l : List (String × α)) : List (String × α) :=
  l.insertionSort (fun a b => keyLe a.1 b.1 = true)

/-- Comma join used between serialized members. -/
def joinComma (parts : List String) : String :=
  String.intercalate "," parts

mutual

/-- `stableStringify`: scalars render as JSON, arrays preserve order, object
entries are sorted lexicographically by key at every level. (Entries are
serialized before sorting; the sort inspects only keys, so this coincides
with sorting and then serializing as the source writes it.) -/
def stableStringify : JVal → String
  | JVal.null => "null"
  | JVal.bool true => "true"
  | JVal.bool false => "false"
  | JVal.num q => renderNum q
  | JVal.str s => jsonString s
  | JVal.arr items => "[" ++ joinComma (ssList items) ++ "]"
  | JVal.obj entries =>
    "\x7b" ++ joinComma ((sortByKey (ssEntries entries)).map renderEntry) ++ "\x7d"
termination_by structural v => v

/-- Serialization of every array item, in order. -/
def ssList : List JVal → List String
  | [] => []
  | v :: rest => stableStringify v :: ssList rest
termination_by structural l => l

/-- Serialization of every object entry value, keys untouched. -/
def ssEntries : List (String × JVal) → List (String × String)
  | [] => []
  | kv :: rest => (kv.1, stableStringify kv.2) :: ssEntries rest
termination_by structural l => l

end

mutual

/-- Canonical form of a value: object keys sorted at every nesting level,
array order untouched. Two values differ only in the order of object keys
exactly when their canonical forms coincide. -/
def canon : JVal → JVal
  | JVal.null => JVal.null
  | JVal.bool b => JVal.bool b
  | JVal.num q => JVal.num q
  | JVal.str s => JVal.str s
  | JVal.arr items => JVal.arr (canonList items)
  | JVal.obj entries => JVal.obj (sortByKey (canonEntries entries))
termination_by structural v => v

/-- Canonical forms of array items. -/
def canonList : List JVal → List JVal
  | [] => []
  | v :: rest => canon v :: canonList rest
termination_by structural l => l

/-- Canonical forms of object entry values. -/
def canonEntries : List (String × JVal) → List (String × JVal)
  | [] => []
  | kv :: rest => (kv.1, canon kv.2) :: canonEntries rest
termination_by structural l => l

end

/-! ### SHA-256 (node `crypto` `createHash('sha256')`), over byte lists -/

namespace SHA256

/-- 32-bit rotate right. -/
def rotr (x n : ℕ) : ℕ := ((x >>> n) ||| (x <<< (32 - n))) % 4294967296

/-- The Ch choice function. -/
def ch (x y z : ℕ) : ℕ := (x &&& y) ^^^ ((x ^^^ 4294967295) &&& z)

/-- The Maj majority function. -/
def maj (x y z : ℕ) : ℕ := ((x &&& y) ^^^ (x &&& z)) ^^^ (y &&& z)

/-- Big sigma 0. -/
def bigSigma0 (x : ℕ) : ℕ := ((rotr x 2) ^^^ (rotr x 13)) ^^^ (rotr x 22)

/-- Big sigma 1. -/
def bigSigma1 (x : ℕ) : ℕ := ((rotr x 6) ^^^ (rotr x 11)) ^^^ (rotr x 25)

/-- Small sigma 0. -/
def smallSigma0 (x : ℕ) : ℕ := ((rotr x 7) ^^^ (rotr x 18)) ^^^ (x >>> 3)

/-- Small sigma 1. -/
def smallSigma1 (x : ℕ) : ℕ := ((rotr x 17) ^^^ (rotr x 19)) ^^^ (x >>> 10)

/-- Round constants (FIPS 180-4 §4.2.2, written in decimal). -/
def K : List ℕ :=
  [1116352408, 1899447441, 3049323471, 3921009573, 961987163, 1508970993,
   2453635748, 2870763221, 3624381080, 310598401, 607225278, 1426881987,
   1925078388, 2162078206, 2614888103, 3248222580, 3835390401, 4022224774,
   264347078, 604807628, 770255983, 1249150122, 1555081692, 1996064986,
   2554220882, 2821834349, 2952996808, 3210313671, 3336571891, 3584528711,
   113926993, 338241895, 666307205, 773529912, 1294757372, 1396182291,
   1695183700, 1986661051, 2177026350, 2456956037, 2730485921, 2820302411,
   3259730800, 3345764771, 3516065817, 3600352804, 4094571909, 275423344,
   430227734, 506948616, 659060556, 883997877, 958139571, 1322822218,
   1537002063, 1747873779, 1955562222, 2024104815, 2227730452, 2361852424,
   2428436474, 2756734187, 3204031479, 3329325298]

/-- Initial hash state (FIPS 180-4 §5.3.3, written in decimal). -/
def H0 : List ℕ :=
  [1779033703, 3144134277, 1013904242, 2773480762,
   1359893119, 2600822924, 528734635, 1541459225]

/-- Big-endian byte rendering of a word. -/
def toBytesBE (n count : ℕ) : List ℕ :=
  (List.range count).map (fun i => (n >>> (8 * (count - 1 - i))) % 256)

/-- Merkle–Damgård padding: 0x80, zeros to 56 mod 64, 8-byte bit length. -/
def padMessage (msg : List ℕ) : List ℕ :=
  let zeros := (64 - ((msg.length + 9) % 64)) % 64
  msg ++ [128] ++ List.replicate zeros 0 ++ toBytesBE (8 * msg.length) 8

/-- Big-endian 32-bit words from bytes. -/
def toWords : List ℕ → List ℕ
  | b0 :: b1 :: b2 :: b3 :: rest => (((b0 * 256 + b1) * 256 + b2) * 256 + b3) :: toWords rest
  | _ => []

/-- Fueled 64-byte chunking; the fuel is instantiated with the list length,
which always suffices. -/
def chunk64Fuel : ℕ → List ℕ → List (List ℕ)
  | 0, _ => []
  | _, [] => []
  | fuel + 1, l => (l.take 64) :: chunk64Fuel fuel (l.drop 64)

/-- Split into 64-byte chunks. -/
def chunk64 (l : List ℕ) : List (List ℕ) :=
  chunk64Fuel l.length l

/-- One message-schedule extension step. -/
def scheduleStep (w : List ℕ) : List ℕ :=
  let i := w.length
  w ++ [(smallSigma1 (w.getD (i - 2) 0) + w.getD (i - 7) 0 + smallSigma0 (w.getD (i - 15) 0)
    + w.getD (i - 16) 0) % 4294967296]

/-- Repeated schedule extension. -/
def buildSchedule (w : List ℕ) : ℕ → List ℕ
  | 0 => w
  | n + 1 => buildSchedule (scheduleStep w) n

/-- One compression round over the 8-word state. -/
def compressStep (state : List ℕ) (kw : ℕ × ℕ) : List ℕ :=
  match state with
  | [a, b, c, d, e, f, g, h] =>
    let t1 := (h + bigSigma1 e + ch e f g + kw.1 + kw.2) % 4294967296
    let t2 := (bigSigma0 a + maj a b c) % 4294967296
    [(t1 + t2) % 4294967296, a, b, c, (d + t1) % 4294967296, e, f, g]
  | other => other

/-- Process one 64-byte chunk. -/
def compressChunk (h : List ℕ) (chunk : List ℕ) : List ℕ :=
  let w := buildSchedule (toWords chunk) 48
  let final := (K.zip w).foldl compressStep h
  (h.zip final).map (fun p => (p.1 + p.2) % 4294967296)

/-- SHA-256 digest bytes of a byte message. -/
def digestBytes (msg : List ℕ) : List ℕ :=
  (((chunk64 (padMessage msg)).foldl compressChunk H0).map (fun w => toBytesBE w 4)).flatten

/-- One lowercase hex digit. -/
def hexDigit (n : ℕ) : Char :=
  if n < 10 then Char.ofNat (48 + n) else Char.ofNat (87 + n)

/-- Two-digit lowercase hex of a byte. -/
def byteToHex (b : ℕ) : String :=
  String.mk [hexDigit (b / 16), hexDigit (b % 16)]

/-- Lowercase hex string of a byte list. -/
def bytesToHex (bs : List ℕ) : String :=
  String.join (bs.map byteToHex)

end SHA256

/-- UTF-8 bytes of an ASCII string (byte per character). -/
def strToBytes (s : String) : List ℕ := s.data.map Char.toNat

/-- `hashObject`: hex SHA-256 of the canonical serialization. -/
def hashObject (v : JVal) : String :=
  SHA256.bytesToHex (SHA256.digestBytes (strToBytes (stableStringify v)))

/-- Left value of the spec example: `{x:1, y:{a:2, b:3}}`. -/
def hashExample1 : JVal :=
  JVal.obj [("x", JVal.num 1), ("y", JVal.obj [("a", JVal.num 2), ("b", JVal.num 3)])]

/-- Right value of the spec example: `{y:{b:3, a:2}, x:1}`. -/
def hashExample2 : JVal :=
  JVal.obj [("y", JVal.obj [("b", JVal.num 3), ("a", JVal.num 2)]), ("x", JVal.num 1)]

/-! ## Execution engine (`execution/executionEngine.ts`) -/

/-- Exchange-side order status (`orderStatusSchema`). -/
inductive ExecOrderStatus where
  | NEW
  | OPEN
  | PARTIALLY_FILLED
  | FILLED
  | CANCELED
  | REJECTED
deriving DecidableEq, Repr

/-- Fallback mode (`FallbackMode`). -/
inductive FallbackMode where
  | MARKET
  | REPLACE_LIMIT
deriving DecidableEq, Repr

/-- Execution configuration with its `DEFAULT_CONFIG` values
(`replacementOffsetPct` 0.02 = 1/50). -/
structure ExecutionConfig where
  limitTimeoutMs : ℕ := 2000
  fallbackMode : FallbackMode := FallbackMode.MARKET
  replacementOffsetPct : ℚ := 1/50
deriving DecidableEq, Repr

/-- The `DEFAULT_CONFIG` constant of the execution engine. -/
def execDefaults : ExecutionConfig := {}

/-- Exchange response to an order placement or status query. -/
structure ExchangeOrder where
  id : String
  status : ExecOrderStatus
  avgFillPrice : Option ℚ
deriving DecidableEq, Repr

/-- Responses of the exchange adapter across the single `execute` run:
the initial placeLimit, the post-sleep getOrderStatus, the caller's
confirmation probe, and the two fallback placements. -/
structure ExchangeEnv where
  limit : ExchangeOrder
  statusAfterSleep : ExchangeOrder
  confirmation : Bool
  market : ExchangeOrder
  replacement : ExchangeOrder
deriving DecidableEq, Repr

/-- Orders-table row as created by `execute`. -/
structure OrderRow where
  id : ℕ
  externalId : String
  symbol : String
  side : Side
  orderType : String
  status : ExecOrderStatus
  quantity : ℚ
  price : ℚ
deriving DecidableEq, Repr

/-- Fills-table row. -/
structure FillRow where
  orderId : ℕ
  price : ℚ
  quantity : ℚ
  fee : ℚ
deriving DecidableEq, Repr

/-- Positions-table row as created by `persistFillAndPosition`. -/
structure PositionRow where
  symbol : String
  side : Side
  quantity : ℚ
  avgEntry : ℚ
deriving DecidableEq, Repr

/-- Relational state touched by the execution engine. -/
structure ExecDb where
  orders : List OrderRow
  fills : List FillRow
  positions : List PositionRow
  audits : List String
  nextOrderId : ℕ
deriving DecidableEq, Repr

/-- Empty database. -/
def emptyDb : ExecDb := { orders := [], fills := [], positions := [], audits := [], nextOrderId := 1 }

/-- Result of `execute` (`ExecuteResult`). -/
inductive ExecuteResult where
  | FILLED (orderId : String) (fillPrice : ℚ)
  | CANCELED (orderId : String) (reason : String)
  | SKIPPED (reason : String) (orderId : String)
deriving DecidableEq, Repr

/-- Rendering of a side for the hashed payload. -/
def sideName : Side → String
  | Side.Long => "Long"
  | Side.Short => "Short"

/-- Rendering of an engine for the hashed payload. -/
def engineName : EngineKind → String
  | EngineKind.Breakout => "Breakout"
  | EngineKind.Continuation => "Continuation"
  | EngineKind.Reversal => "Reversal"
  | EngineKind.Defensive => "Defensive"

/-- `ExecutionEngine.executionKey`: `exec-` plus the stable hash of the five
plan-defining fields. -/
def executionKey (plan : TradePlan) : String :=
  "exec-" ++ hashObject (JVal.obj
    [("symbol", JVal.str plan.symbol),
     ("side", JVal.str (sideName plan.side)),
     ("entryPrice", JVal.num plan.entryPrice),
     ("expiresAt", JVal.num (plan.expiresAt : ℚ)),
     ("engine", JVal.str (engineName plan.engine))])

/-- In-place update of the order row with the given id. -/
def updateOrder (db : ExecDb) (oid : ℕ) (f : OrderRow → OrderRow) : ExecDb :=
  { db with orders := db.orders.map (fun r => if r.id = oid then f r else r) }

/-- The order row created by `execute` before branching: externalId is the
execution key, type LIMIT, status as returned by placeLimit. -/
def newOrderRow (db : ExecDb) (plan : TradePlan) (qty : ℚ) (status : ExecOrderStatus) :
    OrderRow :=
  { id := db.nextOrderId
    externalId := executionKey plan
    symbol := plan.symbol
    side := plan.side
    orderType := "LIMIT"
    status := status
    quantity := qty
    price := plan.entryPrice }

/-- Append a created order row (the id sequence advances). -/
def insertOrderRow (db : ExecDb) (row : OrderRow) : ExecDb :=
  { db with orders := db.orders ++ [row], nextOrderId := db.nextOrderId + 1 }

/-- `ExecutionEngine.persistFillAndPosition`: create the fill and position
rows, mark the order FILLED, and report the fill. -/
def persistFillAndPosition (db : ExecDb) (orderId : ℕ) (plan : TradePlan) (qty fillPrice : ℚ) :
    ExecuteResult × ExecDb :=
  let fillRow : FillRow := { orderId := orderId, price := fillPrice, quantity := qty, fee := 0 }
  let db1 := { db with fills := db.fills ++ [fillRow] }
  let posRow : PositionRow :=
    { symbol := plan.symbol, side := plan.side, quantity := qty, avgEntry := fillPrice }
  let db2 := { db1 with positions := db1.positions ++ [posRow] }
  let db3 := updateOrder db2 orderId (fun r => { r with status := ExecOrderStatus.FILLED })
  (ExecuteResult.FILLED (toString orderId) fillPrice, db3)

/-- `ExecutionEngine.execute`: skip when an order with the execution key
already exists; otherwise place the limit order, persist its row, and follow
the fill/timeout/confirmation/fallback ladder. The third component counts
`placeLimit` calls made during this run. -/
def execute (cfg : ExecutionConfig) (env : ExchangeEnv) (plan : TradePlan) (qty : ℚ)
    (db : ExecDb) : ExecuteResult × ExecDb × ℕ :=
  match db.orders.find? (fun r => r.externalId = executionKey plan) with
  | some existing => (ExecuteResult.SKIPPED "plan already executed" (toString existing.id), db, 0)
  | none =>
    let row := newOrderRow db plan qty env.limit.status
    let db1 := insertOrderRow db row
    if env.limit.status = ExecOrderStatus.FILLED then
      let fill := persistFillAndPosition db1 row.id plan qty
        (env.limit.avgFillPrice.getD plan.entryPrice)
      (fill.1, fill.2, 1)
    else if env.statusAfterSleep.status = ExecOrderStatus.FILLED then
      let fill := persistFillAndPosition db1 row.id plan qty
        (env.statusAfterSleep.avgFillPrice.getD plan.entryPrice)
      (fill.1, fill.2, 1)
    else if env.confirmation = false then
      let db2 := updateOrder db1 row.id (fun r => { r with status := ExecOrderStatus.CANCELED })
      let db3 := { db2 with audits := db2.audits ++ ["execution_cancel"] }
      (ExecuteResult.CANCELED (toString row.id) "signal no longer valid", db3, 1)
    else
      match cfg.fallbackMode with
      | FallbackMode.MARKET =>
        let db2 := updateOrder db1 row.id
          (fun r => { r with status := env.market.status, orderType := "MARKET" })
        let fill := persistFillAndPosition db2 row.id plan qty
          (env.market.avgFillPrice.getD plan.entryPrice)
        (fill.1, fill.2, 1)
      | FallbackMode.REPLACE_LIMIT =>
        let replacementPrice := if plan.side = Side.Long then
            plan.entryPrice * (1 + cfg.replacementOffsetPct / 100)
          else plan.entryPrice * (1 - cfg.replacementOffsetPct / 100)
        if env.replacement.status ≠ ExecOrderStatus.FILLED then
          let db2 := updateOrder db1 row.id
            (fun r => { r with status := ExecOrderStatus.CANCELED })
          (ExecuteResult.CANCELED (toString row.id) "replacement limit not filled", db2, 2)
        else
          let db2 := updateOrder db1 row.id
            (fun r => { r with status := ExecOrderStatus.FILLED })
          let fill := persistFillAndPosition db2 row.id plan qty
            (env.replacement.avgFillPrice.getD replacementPrice)
          (fill.1, fill.2, 2)

/-- Exchange behavior where the initial limit order fills immediately. -/
def envImmediateFill : ExchangeEnv :=
  { limit := { id := "ex-1", status := ExecOrderStatus.FILLED, avgFillPrice := some 100 }
    statusAfterSleep := { id := "ex-1", status := ExecOrderStatus.FILLED, avgFillPrice := some 100 }
    confirmation := true
    market := { id := "ex-2", status := ExecOrderStatus.FILLED, avgFillPrice := some 100 }
    replacement := { id := "ex-3", status := ExecOrderStatus.FILLED, avgFillPrice := some 100 } }

/-- Exchange behavior where the limit order stays open and the replacement
limit fills. -/
def envOpenThenReplace : ExchangeEnv :=
  { limit := { id := "ex-1", status := ExecOrderStatus.OPEN, avgFillPrice := none }
    statusAfterSleep := { id := "ex-1", status := ExecOrderStatus.OPEN, avgFillPrice := none }
    confirmation := true
    market := { id := "ex-2", status := ExecOrderStatus.FILLED, avgFillPrice := some 100 }
    replacement := { id := "ex-3", status := ExecOrderStatus.FILLED, avgFillPrice := some 100 } }

/-- Execution configuration in REPLACE_LIMIT fallback mode. -/
def replCfg : ExecutionConfig := { fallbackMode := FallbackMode.REPLACE_LIMIT }

/-- First execute call of the idempotency witness (defaults, immediate fill). -/
def execFirst : ExecuteResult × ExecDb × ℕ :=
  execute execDefaults envImmediateFill samplePlan 1 emptyDb

/-- Second execute call of the idempotency witness, on the state left by the
first. -/
def execSecond : ExecuteResult × ExecDb × ℕ :=
  execute execDefaults envImmediateFill samplePlan 1 execFirst.2.1

/-! ## Theorems -/

/-- C3: `classifyRegime` is total on percentile contexts and applies the
ordered predicates exactly: Compression iff both compression bounds hold;
else ExpansionChaos iff both expansion bounds hold; else Trend iff the trend
bounds hold; else Range. With the default thresholds (25, 65, 85):
(25,25,20) ↦ Compression, (90,90,20) ↦ ExpansionChaos, (65,40,65) ↦ Trend,
(50,50,50) ↦ Range. -/
theorem classifyRegime_ordered_predicates :
    (∀ (context : RegimeContext) (th : RegimeThresholds),
      (classifyRegime context th = Regime.Compression ↔
        context.sigmaNormPct ≤ th.compressionPercentileThreshold ∧
        context.bbWidthPctile ≤ th.compressionPercentileThreshold) ∧
      (classifyRegime context th = Regime.ExpansionChaos ↔
        ¬(context.sigmaNormPct ≤ th.compressionPercentileThreshold ∧
          context.bbWidthPctile ≤ th.compressionPercentileThreshold) ∧
        (context.sigmaNormPct ≥ th.expansionPercentileThreshold ∧
         context.bbWidthPctile ≥ th.expansionPercentileThreshold)) ∧
      (classifyRegime context th = Regime.Trend ↔
        ¬(context.sigmaNormPct ≤ th.compressionPercentileThreshold ∧
          context.bbWidthPctile ≤ th.compressionPercentileThreshold) ∧
        ¬(context.sigmaNormPct ≥ th.expansionPercentileThreshold ∧
          context.bbWidthPctile ≥ th.expansionPercentileThreshold) ∧
        (context.sigmaNormPct ≥ th.trendPercentileThreshold ∧
         context.slopeAbsPctile ≥ th.trendPercentileThreshold)) ∧
      (classifyRegime context th = Regime.Range ↔
        ¬(context.sigmaNormPct ≤ th.compressionPercentileThreshold ∧
          context.bbWidthPctile ≤ th.compressionPercentileThreshold) ∧
        ¬(context.sigmaNormPct ≥ th.expansionPercentileThreshold ∧
          context.bbWidthPctile ≥ th.expansionPercentileThreshold) ∧
        ¬(context.sigmaNormPct ≥ th.trendPercentileThreshold ∧
          context.slopeAbsPctile ≥ th.trendPercentileThreshold))) ∧
    classifyRegime ⟨25, 25, 20⟩ defaultThresholds = Regime.Compression ∧
    classifyRegime ⟨90, 90, 20⟩ defaultThresholds = Regime.ExpansionChaos ∧
    classifyRegime ⟨65, 40, 65⟩ defaultThresholds = Regime.Trend ∧
    classifyRegime ⟨50, 50, 50⟩ defaultThresholds = Regime.Range := by
  refine ⟨fun context th => ?_, by decide, by decide, by decide, by decide⟩
  unfold classifyRegime
  split_ifs with h1 h2 h3 <;> simp_all

/-- C8: every decision produced by the regime engine satisfies the invariant
defensive ⇒ engine = Defensive; the defensive flag is exactly
volumePercentile ≥ defensive threshold, and when it is off the engine follows
the mapping of the classified regime via `mapRegimeToEngine`. -/
theorem processFeature_defensive_invariant :
    ∀ (opts : RegimeEngineOpts) (prev : List FeatureVector) (feature : FeatureVector)
      (d : RegimeDecision), processFeature opts prev feature = some d →
      d.defensive = decide (opts.defensiveVolumePercentileThreshold ≤ feature.volumePercentile) ∧
      (d.defensive = true → d.engine = EngineKind.Defensive) ∧
      (d.defensive = false → d.engine = mapRegimeToEngine d.regime) := by
  intro opts prev feature d h
  cases hb : buildContext (pushWindow prev feature opts.windowSize) feature with
  | none => simp [processFeature, hb] at h
  | some context =>
    simp only [processFeature, hb, Option.bind_eq_bind, Option.some_bind, Option.pure_def,
      Option.some.injEq] at h
    subst h
    by_cases hd : opts.defensiveVolumePercentileThreshold ≤ feature.volumePercentile <;>
      simp [hd]

/-- Witness for C8 at a concrete defensive feature. -/
theorem processFeature_defensive_invariant_witness :
    sampleDecision.defensive =
      decide (regimeDefaults.defensiveVolumePercentileThreshold ≤ sampleFeature.volumePercentile) ∧
    (sampleDecision.defensive = true → sampleDecision.engine = EngineKind.Defensive) ∧
    (sampleDecision.defensive = false → sampleDecision.engine = mapRegimeToEngine sampleDecision.regime) :=
  processFeature_defensive_invariant regimeDefaults [] sampleFeature sampleDecision (by
    simp only [processFeature, buildContext, percentileRank, pushWindow, sampleFeature,
      regimeDefaults, sampleDecision, classifyRegime, mapRegimeToEngine]
    norm_num)

/-- C4: once the four admission gates pass, the risk service computes
finalLeverage = min(leverage, maxLeverageDefensive) when defensive (else the
plan leverage), qtyRaw = equity·(marginPct/100)·finalLeverage / max(entry,
1e-8) with equity 100, qty = floor(qtyRaw/step)·step, and rejects with
"computed qty below minQty" exactly when qty < minQty, approving (qty,
finalLeverage) otherwise. The hypothesis step ≥ 1e-12 makes the claim's
`step` coincide with the code's `max(step, 1e-12)`. -/
theorem evaluatePlan_quantity_sizing :
    ∀ (config : RiskConfig) (ctx : RiskQueryCtx) (plan : TradePlan)
      (regime : RegimeDecision) (nowMs : ℤ),
      ctx.openBySymbol = 0 →
      ctx.openTotal < (if regime.defensive then ctx.maxOpenPositionsDefensive
        else ctx.maxOpenPositions) →
      cooldownActive ctx.latestCloseTsForSymbol nowMs config.perSymbolCooldownMs = false →
      cooldownActive ctx.latestEngineSignalTs nowMs config.perEngineCooldownMs = false →
      (1/1000000000000 : ℚ) ≤ config.qtyStep →
      ((((Rat.floor ((100 * (plan.marginPct / 100) *
            (if regime.defensive then min plan.leverage config.maxLeverageDefensive
              else plan.leverage) / max plan.entryPrice (1/100000000)) / config.qtyStep) : ℚ) *
          config.qtyStep < config.minQty) →
        evaluatePlan config ctx plan regime nowMs =
          RiskDecision.reject "computed qty below minQty" plan) ∧
      ((config.minQty ≤
          (Rat.floor ((100 * (plan.marginPct / 100) *
            (if regime.defensive then min plan.leverage config.maxLeverageDefensive
              else plan.leverage) / max plan.entryPrice (1/100000000)) / config.qtyStep) : ℚ) *
          config.qtyStep) →
        evaluatePlan config ctx plan regime nowMs =
          RiskDecision.approve
            ((Rat.floor ((100 * (plan.marginPct / 100) *
              (if regime.defensive then min plan.leverage config.maxLeverageDefensive
                else plan.leverage) / max plan.entryPrice (1/100000000)) / config.qtyStep) : ℚ) *
              config.qtyStep)
            (if regime.defensive then min plan.leverage config.maxLeverageDefensive
              else plan.leverage) plan)) := by
  intro config ctx plan regime nowMs h1 h2 h3 h4 hstep
  have hsafe : max config.qtyStep (1/1000000000000 : ℚ) = config.qtyStep := max_eq_left hstep
  have hgate1 : ¬(1 ≤ ctx.openBySymbol) := by omega
  have hgate2 : ¬((if regime.defensive then ctx.maxOpenPositionsDefensive
      else ctx.maxOpenPositions) ≤ ctx.openTotal) := by omega
  unfold evaluatePlan
  rw [if_neg hgate1, if_neg hgate2, h3, h4]
  simp only [Bool.false_eq_true, if_false]
  unfold normalizeQty computeQty
  rw [hsafe]
  constructor
  · intro hlt
    rw [if_pos hlt]
  · intro hge
    rw [if_neg (not_lt.mpr hge)]

/-- Witness for C4 at the defaults: defensive regime caps leverage 3 to 2,
entry 100 and margin 10% size to qty 0.2, which is approved. -/
theorem evaluatePlan_quantity_sizing_witness :
    ((((Rat.floor ((100 * (samplePlan.marginPct / 100) *
          (if sampleDecision.defensive then
              min samplePlan.leverage riskDefaults.maxLeverageDefensive
            else samplePlan.leverage) / max samplePlan.entryPrice (1/100000000)) /
          riskDefaults.qtyStep) : ℚ) * riskDefaults.qtyStep < riskDefaults.minQty) →
      evaluatePlan riskDefaults sampleRiskCtx samplePlan sampleDecision 1734303600000 =
        RiskDecision.reject "computed qty below minQty" samplePlan) ∧
    ((riskDefaults.minQty ≤
        (Rat.floor ((100 * (samplePlan.marginPct / 100) *
          (if sampleDecision.defensive then
              min samplePlan.leverage riskDefaults.maxLeverageDefensive
            else samplePlan.leverage) / max samplePlan.entryPrice (1/100000000)) /
          riskDefaults.qtyStep) : ℚ) * riskDefaults.qtyStep) →
      evaluatePlan riskDefaults sampleRiskCtx samplePlan sampleDecision 1734303600000 =
        RiskDecision.approve
          ((Rat.floor ((100 * (samplePlan.marginPct / 100) *
            (if sampleDecision.defensive then
                min samplePlan.leverage riskDefaults.maxLeverageDefensive
              else samplePlan.leverage) / max samplePlan.entryPrice (1/100000000)) /
            riskDefaults.qtyStep) : ℚ) * riskDefaults.qtyStep)
          (if sampleDecision.defensive then
              min samplePlan.leverage riskDefaults.maxLeverageDefensive
            else samplePlan.leverage) samplePlan)) :=
  evaluatePlan_quantity_sizing riskDefaults sampleRiskCtx samplePlan sampleDecision
    1734303600000 (by decide) (by decide) (by decide) (by decide) (by norm_num [riskDefaults])

/-! ### Position-manager helper lemmas -/

theorem partialExit_preserves (pos : ManagedPosition) (fraction fillPrice : ℚ) (reason : String) :
    (partialExit pos fraction fillPrice reason).1.side = pos.side ∧
    (partialExit pos fraction fillPrice reason).1.took1R = pos.took1R ∧
    (partialExit pos fraction fillPrice reason).1.took2R = pos.took2R ∧
    (partialExit pos fraction fillPrice reason).1.stopPrice = pos.stopPrice ∧
    (partialExit pos fraction fillPrice reason).1.trailingAnchor = pos.trailingAnchor ∧
    (partialExit pos fraction fillPrice reason).1.entryPrice = pos.entryPrice ∧
    (partialExit pos fraction fillPrice reason).1.initialStopPrice = pos.initialStopPrice ∧
    (partialExit pos fraction fillPrice reason).1.atrPct = pos.atrPct ∧
    (partialExit pos fraction fillPrice reason).1.qty = pos.qty := by
  unfold partialExit closePosition
  dsimp only
  split_ifs <;> simp

theorem updateTrailingStop_preserves (config : PositionManagerConfig) (pos : ManagedPosition)
    (price : ℚ) (candleHigh candleLow : Option ℚ) :
    (updateTrailingStop config pos price candleHigh candleLow).side = pos.side ∧
    (updateTrailingStop config pos price candleHigh candleLow).took1R = pos.took1R ∧
    (updateTrailingStop config pos price candleHigh candleLow).took2R = pos.took2R ∧
    (updateTrailingStop config pos price candleHigh candleLow).state = pos.state := by
  unfold updateTrailingStop
  simp

theorem updateTrailingStop_stop_long (config : PositionManagerConfig) (pos : ManagedPosition)
    (price : ℚ) (candleHigh candleLow : Option ℚ) (hside : pos.side = Side.Long) :
    (updateTrailingStop config pos price candleHigh candleLow).trailingAnchor =
      max pos.trailingAnchor (candleHigh.getD price) ∧
    (updateTrailingStop config pos price candleHigh candleLow).stopPrice =
      max pos.stopPrice (max pos.trailingAnchor (candleHigh.getD price) -
        pos.atrPct / 100 * pos.entryPrice * config.trailingAtrMultiple) := by
  unfold updateTrailingStop
  simp [hside]

theorem updateTrailingStop_stop_short (config : PositionManagerConfig) (pos : ManagedPosition)
    (price : ℚ) (candleHigh candleLow : Option ℚ) (hside : pos.side = Side.Short) :
    (updateTrailingStop config pos price candleHigh candleLow).trailingAnchor =
      min pos.trailingAnchor (candleLow.getD price) ∧
    (updateTrailingStop config pos price candleHigh candleLow).stopPrice =
      min pos.stopPrice (min pos.trailingAnchor (candleLow.getD price) +
        pos.atrPct / 100 * pos.entryPrice * config.trailingAtrMultiple) := by
  unfold updateTrailingStop
  have : pos.side ≠ Side.Long := by rw [hside]; intro h; cases h
  simp [this]

@[simp] theorem partialExit_side (pos : ManagedPosition) (fraction fillPrice : ℚ) (reason : String) :
    (partialExit pos fraction fillPrice reason).1.side = pos.side :=
  (partialExit_preserves pos fraction fillPrice reason).1

@[simp] theorem partialExit_took1R (pos : ManagedPosition) (fraction fillPrice : ℚ) (reason : String) :
    (partialExit pos fraction fillPrice reason).1.took1R = pos.took1R :=
  (partialExit_preserves pos fraction fillPrice reason).2.1

@[simp] theorem partialExit_took2R (pos : ManagedPosition) (fraction fillPrice : ℚ) (reason : String) :
    (partialExit pos fraction fillPrice reason).1.took2R = pos.took2R :=
  (partialExit_preserves pos fraction fillPrice reason).2.2.1

@[simp] theorem partialExit_stopPrice (pos : ManagedPosition) (fraction fillPrice : ℚ) (reason : String) :
    (partialExit pos fraction fillPrice reason).1.stopPrice = pos.stopPrice :=
  (partialExit_preserves pos fraction fillPrice reason).2.2.2.1

@[simp] theorem partialExit_trailingAnchor (pos : ManagedPosition) (fraction fillPrice : ℚ)
    (reason : String) :
    (partialExit pos fraction fillPrice reason).1.trailingAnchor = pos.trailingAnchor :=
  (partialExit_preserves pos fraction fillPrice reason).2.2.2.2.1

@[simp] theorem partialExit_entryPrice (pos : ManagedPosition) (fraction fillPrice : ℚ)
    (reason : String) :
    (partialExit pos fraction fillPrice reason).1.entryPrice = pos.entryPrice :=
  (partialExit_preserves pos fraction fillPrice reason).2.2.2.2.2.1

@[simp] theorem partialExit_initialStopPrice (pos : ManagedPosition) (fraction fillPrice : ℚ)
    (reason : String) :
    (partialExit pos fraction fillPrice reason).1.initialStopPrice = pos.initialStopPrice :=
  (partialExit_preserves pos fraction fillPrice reason).2.2.2.2.2.2.1

@[simp] theorem partialExit_atrPct (pos : ManagedPosition) (fraction fillPrice : ℚ)
    (reason : String) :
    (partialExit pos fraction fillPrice reason).1.atrPct = pos.atrPct :=
  (partialExit_preserves pos fraction fillPrice reason).2.2.2.2.2.2.2.1

@[simp] theorem partialExit_qty (pos : ManagedPosition) (fraction fillPrice : ℚ) (reason : String) :
    (partialExit pos fraction fillPrice reason).1.qty = pos.qty :=
  (partialExit_preserves pos fraction fillPrice reason).2.2.2.2.2.2.2.2

@[simp] theorem closePosition_fst_side (pos : ManagedPosition) (fillPrice : ℚ) (reason : String) :
    (closePosition pos fillPrice reason).1.side = pos.side := rfl

@[simp] theorem closePosition_fst_took1R (pos : ManagedPosition) (fillPrice : ℚ) (reason : String) :
    (closePosition pos fillPrice reason).1.took1R = pos.took1R := rfl

@[simp] theorem closePosition_fst_took2R (pos : ManagedPosition) (fillPrice : ℚ) (reason : String) :
    (closePosition pos fillPrice reason).1.took2R = pos.took2R := rfl

@[simp] theorem closePosition_fst_stopPrice (pos : ManagedPosition) (fillPrice : ℚ) (reason : String) :
    (closePosition pos fillPrice reason).1.stopPrice = pos.stopPrice := rfl

@[simp] theorem closePosition_fst_trailingAnchor (pos : ManagedPosition) (fillPrice : ℚ)
    (reason : String) :
    (closePosition pos fillPrice reason).1.trailingAnchor = pos.trailingAnchor := rfl

@[simp] theorem closePosition_fst_state (pos : ManagedPosition) (fillPrice : ℚ) (reason : String) :
    (closePosition pos fillPrice reason).1.state = PositionLifecycleState.COOLDOWN := rfl

@[simp] theorem closePosition_fst_remainingQty (pos : ManagedPosition) (fillPrice : ℚ)
    (reason : String) :
    (closePosition pos fillPrice reason).1.remainingQty = 0 := rfl

@[simp] theorem closePosition_snd (pos : ManagedPosition) (fillPrice : ℚ) (reason : String) :
    (closePosition pos fillPrice reason).2 = PositionAction.closed reason fillPrice := rfl

@[simp] theorem updateTrailingStop_side (config : PositionManagerConfig) (pos : ManagedPosition)
    (price : ℚ) (candleHigh candleLow : Option ℚ) :
    (updateTrailingStop config pos price candleHigh candleLow).side = pos.side :=
  (updateTrailingStop_preserves config pos price candleHigh candleLow).1

@[simp] theorem updateTrailingStop_took1R (config : PositionManagerConfig) (pos : ManagedPosition)
    (price : ℚ) (candleHigh candleLow : Option ℚ) :
    (updateTrailingStop config pos price candleHigh candleLow).took1R = pos.took1R :=
  (updateTrailingStop_preserves config pos price candleHigh candleLow).2.1

@[simp] theorem updateTrailingStop_took2R (config : PositionManagerConfig) (pos : ManagedPosition)
    (price : ℚ) (candleHigh candleLow : Option ℚ) :
    (updateTrailingStop config pos price candleHigh candleLow).took2R = pos.took2R :=
  (updateTrailingStop_preserves config pos price candleHigh candleLow).2.2.1

@[simp] theorem updateTrailingStop_state (config : PositionManagerConfig) (pos : ManagedPosition)
    (price : ℚ) (candleHigh candleLow : Option ℚ) :
    (updateTrailingStop config pos price candleHigh candleLow).state = pos.state :=
  (updateTrailingStop_preserves config pos price candleHigh candleLow).2.2.2

@[simp] theorem exitMatches_partialFill (reason r : String) (q f : ℚ) :
    exitMatches reason (PositionAction.partialFill r q f) = decide (r = reason) := rfl

@[simp] theorem exitMatches_closed (reason r : String) (f : ℚ) :
    exitMatches reason (PositionAction.closed r f) = false := rfl

theorem countExits_append (reason : String) (a b : List PositionAction) :
    countExits reason (a ++ b) = countExits reason a + countExits reason b := by
  unfold countExits
  exact List.countP_append _ _ _

theorem countExits_partialExit (pos : ManagedPosition) (fraction fillPrice : ℚ)
    (emitted reason : String) :
    countExits reason (partialExit pos fraction fillPrice emitted).2 =
      if 0 < min pos.remainingQty (pos.qty * fraction) ∧ emitted = reason then 1 else 0 := by
  unfold partialExit closePosition
  dsimp only
  by_cases h1 : min pos.remainingQty (pos.qty * fraction) ≤ 0
  · rw [if_pos h1, if_neg (fun hc => absurd hc.1 (not_lt.mpr h1))]
    simp [countExits]
  · have hq : 0 < min pos.remainingQty (pos.qty * fraction) := not_le.mp h1
    rw [if_neg h1]
    by_cases h3 : emitted = reason
    · by_cases h2 : pos.remainingQty - min pos.remainingQty (pos.qty * fraction) ≤
          1/10000000000
      · rw [if_pos h2, if_pos ⟨hq, h3⟩]
        simp [countExits, List.countP_cons, h3]
      · rw [if_neg h2, if_pos ⟨hq, h3⟩]
        simp [countExits, List.countP_cons, h3]
    · by_cases h2 : pos.remainingQty - min pos.remainingQty (pos.qty * fraction) ≤
          1/10000000000
      · rw [if_pos h2, if_neg (fun hc => h3 hc.2)]
        simp [countExits, List.countP_cons, h3]
      · rw [if_neg h2, if_neg (fun hc => h3 hc.2)]
        simp [countExits, List.countP_cons, h3]

@[simp] theorem take1R_side (pos : ManagedPosition) (price r : ℚ) :
    (take1R pos price r).1.side = pos.side := by
  unfold take1R; split_ifs <;> simp

@[simp] theorem take1R_took2R (pos : ManagedPosition) (price r : ℚ) :
    (take1R pos price r).1.took2R = pos.took2R := by
  unfold take1R; split_ifs <;> simp

@[simp] theorem take1R_stopPrice (pos : ManagedPosition) (price r : ℚ) :
    (take1R pos price r).1.stopPrice = pos.stopPrice := by
  unfold take1R; split_ifs <;> simp

@[simp] theorem take1R_trailingAnchor (pos : ManagedPosition) (price r : ℚ) :
    (take1R pos price r).1.trailingAnchor = pos.trailingAnchor := by
  unfold take1R; split_ifs <;> simp

@[simp] theorem take1R_entryPrice (pos : ManagedPosition) (price r : ℚ) :
    (take1R pos price r).1.entryPrice = pos.entryPrice := by
  unfold take1R; split_ifs <;> simp

@[simp] theorem take1R_atrPct (pos : ManagedPosition) (price r : ℚ) :
    (take1R pos price r).1.atrPct = pos.atrPct := by
  unfold take1R; split_ifs <;> simp

theorem take1R_took1R (pos : ManagedPosition) (price r : ℚ) :
    (take1R pos price r).1.took1R = (pos.took1R || decide (1 ≤ r)) := by
  unfold take1R
  split_ifs with hc
  · simp [hc.1, hc.2]
  · cases ht : pos.took1R
    · have hr : ¬(1 ≤ r) := fun hr => hc ⟨ht, hr⟩
      simp [hr]
    · simp

theorem take1R_acts (pos : ManagedPosition) (price r : ℚ) :
    (take1R pos price r).2 =
      if pos.took1R = false ∧ 1 ≤ r then (partialExit pos (1/2) price "+1R partial").2
      else [] := by
  unfold take1R; split_ifs <;> rfl

@[simp] theorem take2R_side (pos : ManagedPosition) (price r : ℚ) :
    (take2R pos price r).1.side = pos.side := by
  unfold take2R; split_ifs <;> simp

@[simp] theorem take2R_took1R_pres (pos : ManagedPosition) (price r : ℚ) :
    (take2R pos price r).1.took1R = pos.took1R := by
  unfold take2R; split_ifs <;> simp

@[simp] theorem take2R_stopPrice (pos : ManagedPosition) (price r : ℚ) :
    (take2R pos price r).1.stopPrice = pos.stopPrice := by
  unfold take2R; split_ifs <;> simp

@[simp] theorem take2R_trailingAnchor (pos : ManagedPosition) (price r : ℚ) :
    (take2R pos price r).1.trailingAnchor = pos.trailingAnchor := by
  unfold take2R; split_ifs <;> simp

@[simp] theorem take2R_entryPrice (pos : ManagedPosition) (price r : ℚ) :
    (take2R pos price r).1.entryPrice = pos.entryPrice := by
  unfold take2R; split_ifs <;> simp

@[simp] theorem take2R_atrPct (pos : ManagedPosition) (price r : ℚ) :
    (take2R pos price r).1.atrPct = pos.atrPct := by
  unfold take2R; split_ifs <;> simp

theorem take2R_took2R (pos : ManagedPosition) (price r : ℚ) :
    (take2R pos price r).1.took2R = (pos.took2R || decide (2 ≤ r)) := by
  unfold take2R
  split_ifs with hc
  · simp [hc.1, hc.2]
  · cases ht : pos.took2R
    · have hr : ¬(2 ≤ r) := fun hr => hc ⟨ht, hr⟩
      simp [hr]
    · simp

theorem take2R_acts (pos : ManagedPosition) (price r : ℚ) :
    (take2R pos price r).2 =
      if pos.took2R = false ∧ 2 ≤ r then (partialExit pos (3/10) price "+2R partial").2
      else [] := by
  unfold take2R; split_ifs <;> rfl

@[simp] theorem trailStage_side (config : PositionManagerConfig) (pos : ManagedPosition)
    (price : ℚ) (hi lo : Option ℚ) :
    (trailStage config pos price hi lo).side = pos.side := by
  unfold trailStage; split_ifs <;> simp

@[simp] theorem trailStage_took1R (config : PositionManagerConfig) (pos : ManagedPosition)
    (price : ℚ) (hi lo : Option ℚ) :
    (trailStage config pos price hi lo).took1R = pos.took1R := by
  unfold trailStage; split_ifs <;> simp

@[simp] theorem trailStage_took2R (config : PositionManagerConfig) (pos : ManagedPosition)
    (price : ℚ) (hi lo : Option ℚ) :
    (trailStage config pos price hi lo).took2R = pos.took2R := by
  unfold trailStage; split_ifs <;> simp

@[simp] theorem stopOutStage_side (pos : ManagedPosition) (price : ℚ) :
    (stopOutStage pos price).1.side = pos.side := by
  unfold stopOutStage; split_ifs <;> simp

@[simp] theorem stopOutStage_took1R (pos : ManagedPosition) (price : ℚ) :
    (stopOutStage pos price).1.took1R = pos.took1R := by
  unfold stopOutStage; split_ifs <;> simp

@[simp] theorem stopOutStage_took2R (pos : ManagedPosition) (price : ℚ) :
    (stopOutStage pos price).1.took2R = pos.took2R := by
  unfold stopOutStage; split_ifs <;> simp

@[simp] theorem stopOutStage_stopPrice (pos : ManagedPosition) (price : ℚ) :
    (stopOutStage pos price).1.stopPrice = pos.stopPrice := by
  unfold stopOutStage; split_ifs <;> simp

@[simp] theorem stopOutStage_trailingAnchor (pos : ManagedPosition) (price : ℚ) :
    (stopOutStage pos price).1.trailingAnchor = pos.trailingAnchor := by
  unfold stopOutStage; split_ifs <;> simp

theorem stopOutStage_acts (pos : ManagedPosition) (price : ℚ) :
    (stopOutStage pos price).2 =
      if (pos.side = Side.Long ∧ price ≤ pos.stopPrice) ∨
          (pos.side = Side.Short ∧ pos.stopPrice ≤ price) then
        [PositionAction.closed "stop hit" price]
      else [] := by
  unfold stopOutStage; split_ifs <;> rfl

theorem onPrice_skip (config : PositionManagerConfig) (pos : ManagedPosition) (price : ℚ)
    (hi lo : Option ℚ) (h : pos.state ≠ PositionLifecycleState.IN_POSITION) :
    onPrice config pos price hi lo = (pos, []) := by
  unfold onPrice
  rw [if_pos h]

theorem onPrice_run (config : PositionManagerConfig) (pos : ManagedPosition) (price : ℚ)
    (hi lo : Option ℚ) (h : pos.state = PositionLifecycleState.IN_POSITION) :
    onPrice config pos price hi lo =
      ((stopOutStage (trailStage config
          (take2R (take1R pos price (rMultiple pos price)).1 price (rMultiple pos price)).1
          price hi lo) price).1,
        (take1R pos price (rMultiple pos price)).2 ++
        (take2R (take1R pos price (rMultiple pos price)).1 price (rMultiple pos price)).2 ++
        (stopOutStage (trailStage config
          (take2R (take1R pos price (rMultiple pos price)).1 price (rMultiple pos price)).1
          price hi lo) price).2) := by
  unfold onPrice
  rw [if_neg (fun hc => hc h)]

theorem onPrice_side (config : PositionManagerConfig) (pos : ManagedPosition) (price : ℚ)
    (hi lo : Option ℚ) : (onPrice config pos price hi lo).1.side = pos.side := by
  by_cases h : pos.state = PositionLifecycleState.IN_POSITION
  · rw [onPrice_run config pos price hi lo h]
    simp
  · rw [onPrice_skip config pos price hi lo h]

theorem onPrice_took1R (config : PositionManagerConfig) (pos : ManagedPosition) (price : ℚ)
    (hi lo : Option ℚ) (h : pos.state = PositionLifecycleState.IN_POSITION) :
    (onPrice config pos price hi lo).1.took1R =
      (pos.took1R || decide (1 ≤ rMultiple pos price)) := by
  rw [onPrice_run config pos price hi lo h]
  simp [take1R_took1R]

theorem onPrice_took2R (config : PositionManagerConfig) (pos : ManagedPosition) (price : ℚ)
    (hi lo : Option ℚ) (h : pos.state = PositionLifecycleState.IN_POSITION) :
    (onPrice config pos price hi lo).1.took2R =
      (pos.took2R || decide (2 ≤ rMultiple pos price)) := by
  rw [onPrice_run config pos price hi lo h]
  simp [take2R_took2R]

theorem countExits_ite (reason : String) (c : Prop) [Decidable c] (l : List PositionAction) :
    countExits reason (if c then l else []) = if c then countExits reason l else 0 := by
  split_ifs <;> rfl

theorem countExits_partialExit_ne (pos : ManagedPosition) (fraction fillPrice : ℚ)
    (emitted reason : String) (h : emitted ≠ reason) :
    countExits reason (partialExit pos fraction fillPrice emitted).2 = 0 := by
  rw [countExits_partialExit]
  simp [h]

theorem countExits_closed_single (reason r : String) (fp : ℚ) :
    countExits reason [PositionAction.closed r fp] = 0 := by
  simp [countExits]

theorem onPrice_count1R (config : PositionManagerConfig) (pos : ManagedPosition) (price : ℚ)
    (hi lo : Option ℚ) :
    countExits "+1R partial" (onPrice config pos price hi lo).2 =
      if pos.state = PositionLifecycleState.IN_POSITION ∧ pos.took1R = false ∧
          1 ≤ rMultiple pos price ∧ 0 < min pos.remainingQty (pos.qty * (1/2)) then 1
      else 0 := by
  by_cases h : pos.state = PositionLifecycleState.IN_POSITION
  · rw [onPrice_run config pos price hi lo h, countExits_append, countExits_append,
      take1R_acts, take2R_acts, stopOutStage_acts]
    rw [countExits_ite, countExits_ite, countExits_ite,
      countExits_partialExit,
      countExits_partialExit_ne _ _ _ "+2R partial" "+1R partial" (by decide),
      countExits_closed_single, ite_self, ite_self]
    by_cases hc1 : pos.took1R = false ∧ 1 ≤ rMultiple pos price
    · rw [if_pos hc1]
      by_cases hm : 0 < min pos.remainingQty (pos.qty * (1/2))
      · rw [if_pos ⟨hm, rfl⟩, if_pos ⟨h, hc1.1, hc1.2, hm⟩]
      · rw [if_neg (fun hx => hm hx.1), if_neg (fun hx => hm hx.2.2.2)]
    · rw [if_neg hc1, if_neg (fun hx => hc1 ⟨hx.2.1, hx.2.2.1⟩)]
  · rw [onPrice_skip config pos price hi lo h, if_neg (fun hx => h hx.1)]
    simp [countExits]

theorem onPrice_count2R_eq (config : PositionManagerConfig) (pos : ManagedPosition) (price : ℚ)
    (hi lo : Option ℚ) :
    countExits "+2R partial" (onPrice config pos price hi lo).2 =
      if pos.state = PositionLifecycleState.IN_POSITION ∧ pos.took2R = false ∧
          2 ≤ rMultiple pos price ∧
          0 < min (take1R pos price (rMultiple pos price)).1.remainingQty
            ((take1R pos price (rMultiple pos price)).1.qty * (3/10)) then 1
      else 0 := by
  by_cases h : pos.state = PositionLifecycleState.IN_POSITION
  · rw [onPrice_run config pos price hi lo h, countExits_append, countExits_append,
      take1R_acts, take2R_acts, stopOutStage_acts]
    rw [countExits_ite, countExits_ite, countExits_ite,
      countExits_partialExit_ne _ _ _ "+1R partial" "+2R partial" (by decide),
      countExits_partialExit,
      countExits_closed_single, take1R_took2R, ite_self, ite_self]
    by_cases hc2 : pos.took2R = false ∧ 2 ≤ rMultiple pos price
    · rw [if_pos hc2]
      by_cases hm : 0 < min (take1R pos price (rMultiple pos price)).1.remainingQty
          ((take1R pos price (rMultiple pos price)).1.qty * (3/10))
      · rw [if_pos ⟨hm, rfl⟩, if_pos ⟨h, hc2.1, hc2.2, hm⟩]
      · rw [if_neg (fun hx => hm hx.1), if_neg (fun hx => hm hx.2.2.2)]
    · rw [if_neg hc2, if_neg (fun hx => hc2 ⟨hx.2.1, hx.2.2.1⟩)]
  · rw [onPrice_skip config pos price hi lo h, if_neg (fun hx => h hx.1)]
    simp [countExits]

theorem onPrice_count2R_le (config : PositionManagerConfig) (pos : ManagedPosition) (price : ℚ)
    (hi lo : Option ℚ) :
    countExits "+2R partial" (onPrice config pos price hi lo).2 ≤ 1 := by
  rw [onPrice_count2R_eq]
  split_ifs <;> simp

theorem onPrice_count2R_pos (config : PositionManagerConfig) (pos : ManagedPosition) (price : ℚ)
    (hi lo : Option ℚ) (h1 : 1 ≤ countExits "+2R partial" (onPrice config pos price hi lo).2) :
    pos.state = PositionLifecycleState.IN_POSITION ∧ pos.took2R = false ∧
      2 ≤ rMultiple pos price := by
  rw [onPrice_count2R_eq] at h1
  split_ifs at h1 with hc
  · exact ⟨hc.1, hc.2.1, hc.2.2.1⟩
  · omega

theorem onPrice_count1R_zero (config : PositionManagerConfig) (pos : ManagedPosition)
    (price : ℚ) (hi lo : Option ℚ) (h : pos.took1R = true) :
    countExits "+1R partial" (onPrice config pos price hi lo).2 = 0 := by
  rw [onPrice_count1R]
  simp [h]

theorem onPrice_count2R_zero (config : PositionManagerConfig) (pos : ManagedPosition)
    (price : ℚ) (hi lo : Option ℚ) (h : pos.took2R = true) :
    countExits "+2R partial" (onPrice config pos price hi lo).2 = 0 := by
  by_contra hne
  have h1 : 1 ≤ countExits "+2R partial" (onPrice config pos price hi lo).2 := by omega
  have := (onPrice_count2R_pos config pos price hi lo h1).2.1
  rw [h] at this
  cases this

theorem onPrice_took1R_mono (config : PositionManagerConfig) (pos : ManagedPosition)
    (price : ℚ) (hi lo : Option ℚ) (h : pos.took1R = true) :
    (onPrice config pos price hi lo).1.took1R = true := by
  by_cases hs : pos.state = PositionLifecycleState.IN_POSITION
  · rw [onPrice_took1R config pos price hi lo hs, h]
    simp
  · rw [onPrice_skip config pos price hi lo hs]
    exact h

theorem onPrice_took2R_mono (config : PositionManagerConfig) (pos : ManagedPosition)
    (price : ℚ) (hi lo : Option ℚ) (h : pos.took2R = true) :
    (onPrice config pos price hi lo).1.took2R = true := by
  by_cases hs : pos.state = PositionLifecycleState.IN_POSITION
  · rw [onPrice_took2R config pos price hi lo hs, h]
    simp
  · rw [onPrice_skip config pos price hi lo hs]
    exact h

theorem onPrice_count1R_le (config : PositionManagerConfig) (pos : ManagedPosition)
    (price : ℚ) (hi lo : Option ℚ) :
    countExits "+1R partial" (onPrice config pos price hi lo).2 ≤ 1 := by
  rw [onPrice_count1R]
  split_ifs <;> simp

theorem onPrice_count1R_sets_flag (config : PositionManagerConfig) (pos : ManagedPosition)
    (price : ℚ) (hi lo : Option ℚ)
    (h1 : 1 ≤ countExits "+1R partial" (onPrice config pos price hi lo).2) :
    (onPrice config pos price hi lo).1.took1R = true := by
  rw [onPrice_count1R] at h1
  split_ifs at h1 with hc
  · rw [onPrice_took1R config pos price hi lo hc.1]
    simp [hc.2.2.1]
  · omega

theorem onPrice_count2R_sets_flag (config : PositionManagerConfig) (pos : ManagedPosition)
    (price : ℚ) (hi lo : Option ℚ)
    (h1 : 1 ≤ countExits "+2R partial" (onPrice config pos price hi lo).2) :
    (onPrice config pos price hi lo).1.took2R = true := by
  obtain ⟨hs, ht, hr⟩ := onPrice_count2R_pos config pos price hi lo h1
  rw [onPrice_took2R config pos price hi lo hs]
  simp [hr]

theorem runPrices_count1R (config : PositionManagerConfig) (pos : ManagedPosition)
    (steps : List (ℚ × Option ℚ × Option ℚ)) :
    (pos.took1R = true → countExits "+1R partial" (runPrices config pos steps).2 = 0) ∧
    countExits "+1R partial" (runPrices config pos steps).2 ≤ 1 := by
  induction steps generalizing pos with
  | nil => simp [runPrices, countExits]
  | cons step rest ih =>
    obtain ⟨price, hi, lo⟩ := step
    simp only [runPrices]
    rw [countExits_append]
    constructor
    · intro h1
      rw [onPrice_count1R_zero config pos price hi lo h1,
        (ih ((onPrice config pos price hi lo).1)).1
          (onPrice_took1R_mono config pos price hi lo h1)]
    · by_cases h1 : pos.took1R = true
      · rw [onPrice_count1R_zero config pos price hi lo h1,
          (ih ((onPrice config pos price hi lo).1)).1
            (onPrice_took1R_mono config pos price hi lo h1)]
        omega
      · by_cases hc : 1 ≤ countExits "+1R partial" (onPrice config pos price hi lo).2
        · have htail := (ih ((onPrice config pos price hi lo).1)).1
            (onPrice_count1R_sets_flag config pos price hi lo hc)
          have hstep := onPrice_count1R_le config pos price hi lo
          omega
        · have htail := (ih ((onPrice config pos price hi lo).1)).2
          omega

theorem runPrices_count2R (config : PositionManagerConfig) (pos : ManagedPosition)
    (steps : List (ℚ × Option ℚ × Option ℚ)) :
    (pos.took2R = true → countExits "+2R partial" (runPrices config pos steps).2 = 0) ∧
    countExits "+2R partial" (runPrices config pos steps).2 ≤ 1 := by
  induction steps generalizing pos with
  | nil => simp [runPrices, countExits]
  | cons step rest ih =>
    obtain ⟨price, hi, lo⟩ := step
    simp only [runPrices]
    rw [countExits_append]
    constructor
    · intro h1
      rw [onPrice_count2R_zero config pos price hi lo h1,
        (ih ((onPrice config pos price hi lo).1)).1
          (onPrice_took2R_mono config pos price hi lo h1)]
    · by_cases h1 : pos.took2R = true
      · rw [onPrice_count2R_zero config pos price hi lo h1,
          (ih ((onPrice config pos price hi lo).1)).1
            (onPrice_took2R_mono config pos price hi lo h1)]
        omega
      · by_cases hc : 1 ≤ countExits "+2R partial" (onPrice config pos price hi lo).2
        · have htail := (ih ((onPrice config pos price hi lo).1)).1
            (onPrice_count2R_sets_flag config pos price hi lo hc)
          have hstep := onPrice_count2R_le config pos price hi lo
          omega
        · have htail := (ih ((onPrice config pos price hi lo).1)).2
          omega

theorem trailStage_stop_mono_long (config : PositionManagerConfig) (pos : ManagedPosition)
    (price : ℚ) (hi lo : Option ℚ) (hside : pos.side = Side.Long) :
    pos.stopPrice ≤ (trailStage config pos price hi lo).stopPrice := by
  unfold trailStage
  split_ifs
  · rw [(updateTrailingStop_stop_long config pos price hi lo hside).2]
    exact le_max_left _ _
  · exact le_refl _

theorem trailStage_stop_mono_short (config : PositionManagerConfig) (pos : ManagedPosition)
    (price : ℚ) (hi lo : Option ℚ) (hside : pos.side = Side.Short) :
    (trailStage config pos price hi lo).stopPrice ≤ pos.stopPrice := by
  unfold trailStage
  split_ifs
  · rw [(updateTrailingStop_stop_short config pos price hi lo hside).2]
    exact min_le_left _ _
  · exact le_refl _

theorem onPrice_stop_mono (config : PositionManagerConfig) (pos : ManagedPosition) (price : ℚ)
    (hi lo : Option ℚ) :
    (pos.side = Side.Long → pos.stopPrice ≤ (onPrice config pos price hi lo).1.stopPrice) ∧
    (pos.side = Side.Short → (onPrice config pos price hi lo).1.stopPrice ≤ pos.stopPrice) := by
  by_cases h : pos.state = PositionLifecycleState.IN_POSITION
  · rw [onPrice_run config pos price hi lo h]
    have hXstop : (take2R (take1R pos price (rMultiple pos price)).1 price
        (rMultiple pos price)).1.stopPrice = pos.stopPrice := by simp
    have hXside : (take2R (take1R pos price (rMultiple pos price)).1 price
        (rMultiple pos price)).1.side = pos.side := by simp
    constructor
    · intro hside
      have := trailStage_stop_mono_long config
        (take2R (take1R pos price (rMultiple pos price)).1 price (rMultiple pos price)).1
        price hi lo (by rw [hXside, hside])
      rw [hXstop] at this
      simpa using this
    · intro hside
      have := trailStage_stop_mono_short config
        (take2R (take1R pos price (rMultiple pos price)).1 price (rMultiple pos price)).1
        price hi lo (by rw [hXside, hside])
      rw [hXstop] at this
      simpa using this
  · rw [onPrice_skip config pos price hi lo h]
    exact ⟨fun _ => le_refl _, fun _ => le_refl _⟩

theorem runPrices_stop_mono (config : PositionManagerConfig) (pos : ManagedPosition)
    (steps : List (ℚ × Option ℚ × Option ℚ)) :
    (pos.side = Side.Long → pos.stopPrice ≤ (runPrices config pos steps).1.stopPrice) ∧
    (pos.side = Side.Short → (runPrices config pos steps).1.stopPrice ≤ pos.stopPrice) := by
  induction steps generalizing pos with
  | nil => exact ⟨fun _ => le_refl _, fun _ => le_refl _⟩
  | cons step rest ih =>
    obtain ⟨price, hi, lo⟩ := step
    simp only [runPrices]
    constructor
    · intro hside
      refine le_trans ((onPrice_stop_mono config pos price hi lo).1 hside)
        ((ih ((onPrice config pos price hi lo).1)).1 ?_)
      rw [onPrice_side]
      exact hside
    · intro hside
      refine le_trans ((ih ((onPrice config pos price hi lo).1)).2 ?_)
        ((onPrice_stop_mono config pos price hi lo).2 hside)
      rw [onPrice_side]
      exact hside

theorem partialExit_spec (pos : ManagedPosition) (fraction fillPrice : ℚ) (reason : String)
    (hq : 0 < min pos.remainingQty (pos.qty * fraction)) :
    (partialExit pos fraction fillPrice reason).1.realizedR =
      pos.realizedR + pnlPerUnit pos fillPrice / riskPerUnit pos *
        (min pos.remainingQty (pos.qty * fraction) / pos.qty) ∧
    (pos.remainingQty - min pos.remainingQty (pos.qty * fraction) ≤ 1/10000000000 →
      (partialExit pos fraction fillPrice reason).1.remainingQty = 0 ∧
      (partialExit pos fraction fillPrice reason).1.state = PositionLifecycleState.COOLDOWN ∧
      (partialExit pos fraction fillPrice reason).2 =
        [PositionAction.partialFill reason (min pos.remainingQty (pos.qty * fraction)) fillPrice,
         PositionAction.closed "all partial exits completed" fillPrice]) ∧
    (1/10000000000 < pos.remainingQty - min pos.remainingQty (pos.qty * fraction) →
      (partialExit pos fraction fillPrice reason).1.remainingQty =
        pos.remainingQty - min pos.remainingQty (pos.qty * fraction) ∧
      (partialExit pos fraction fillPrice reason).2 =
        [PositionAction.partialFill reason (min pos.remainingQty (pos.qty * fraction)) fillPrice]) := by
  have hq' : ¬(min pos.remainingQty (pos.qty * fraction) ≤ 0) := not_le.mpr hq
  unfold partialExit closePosition
  dsimp only
  rw [if_neg hq']
  by_cases hc : pos.remainingQty - min pos.remainingQty (pos.qty * fraction) ≤ 1/10000000000
  · rw [if_pos hc]
    exact ⟨rfl, fun _ => ⟨rfl, rfl, rfl⟩, fun hgt => absurd hc (not_le.mpr hgt)⟩
  · rw [if_neg hc]
    exact ⟨rfl, fun hle => absurd hle hc, fun _ => ⟨rfl, rfl⟩⟩

/-- C5: for IN_POSITION positions, onPrice takes the +1R half-size exit at
most once when R reaches 1 and the +2R 0.3-size exit at most once when R
reaches 2 (the flags become took1R ∨ R≥1 and took2R ∨ R≥2, so a taken exit
is never repeated along any onPrice sequence); every partial exit deducts
min(remainingQty, fraction·qty), adds (pnlPerUnit/riskPerUnit)·(qtyToExit/qty)
to realizedR, and closes with reason "all partial exits completed" as soon as
the remainder is ≤ 1e-10. -/
theorem onPrice_partial_exit_discipline :
    (∀ (pos : ManagedPosition) (fraction fillPrice : ℚ) (reason : String),
      0 < min pos.remainingQty (pos.qty * fraction) →
      (partialExit pos fraction fillPrice reason).1.realizedR =
        pos.realizedR + pnlPerUnit pos fillPrice / riskPerUnit pos *
          (min pos.remainingQty (pos.qty * fraction) / pos.qty) ∧
      (pos.remainingQty - min pos.remainingQty (pos.qty * fraction) ≤ 1/10000000000 →
        (partialExit pos fraction fillPrice reason).1.remainingQty = 0 ∧
        (partialExit pos fraction fillPrice reason).1.state = PositionLifecycleState.COOLDOWN ∧
        (partialExit pos fraction fillPrice reason).2 =
          [PositionAction.partialFill reason (min pos.remainingQty (pos.qty * fraction)) fillPrice,
           PositionAction.closed "all partial exits completed" fillPrice]) ∧
      (1/10000000000 < pos.remainingQty - min pos.remainingQty (pos.qty * fraction) →
        (partialExit pos fraction fillPrice reason).1.remainingQty =
          pos.remainingQty - min pos.remainingQty (pos.qty * fraction) ∧
        (partialExit pos fraction fillPrice reason).2 =
          [PositionAction.partialFill reason (min pos.remainingQty (pos.qty * fraction))
            fillPrice])) ∧
    (∀ (config : PositionManagerConfig) (pos : ManagedPosition) (price : ℚ) (hi lo : Option ℚ),
      pos.state = PositionLifecycleState.IN_POSITION →
      (onPrice config pos price hi lo).1.took1R =
        (pos.took1R || decide (1 ≤ rMultiple pos price)) ∧
      (onPrice config pos price hi lo).1.took2R =
        (pos.took2R || decide (2 ≤ rMultiple pos price))) ∧
    (∀ (config : PositionManagerConfig) (pos : ManagedPosition) (price : ℚ) (hi lo : Option ℚ),
      (countExits "+1R partial" (onPrice config pos price hi lo).2 = 1 ↔
        pos.state = PositionLifecycleState.IN_POSITION ∧ pos.took1R = false ∧
          1 ≤ rMultiple pos price ∧ 0 < min pos.remainingQty (pos.qty * (1/2))) ∧
      (1 ≤ countExits "+2R partial" (onPrice config pos price hi lo).2 →
        pos.took2R = false ∧ 2 ≤ rMultiple pos price)) ∧
    (∀ (config : PositionManagerConfig) (pos : ManagedPosition)
      (steps : List (ℚ × Option ℚ × Option ℚ)),
      countExits "+1R partial" (runPrices config pos steps).2 ≤ 1 ∧
      countExits "+2R partial" (runPrices config pos steps).2 ≤ 1) := by
  refine ⟨partialExit_spec, ?_, ?_, ?_⟩
  · intro config pos price hi lo h
    exact ⟨onPrice_took1R config pos price hi lo h, onPrice_took2R config pos price hi lo h⟩
  · intro config pos price hi lo
    constructor
    · rw [onPrice_count1R]
      split_ifs with hc
      · exact iff_of_true rfl hc
      · exact iff_of_false (by decide) hc
    · intro h1
      exact (onPrice_count2R_pos config pos price hi lo h1).2
  · intro config pos steps
    exact ⟨(runPrices_count1R config pos steps).2, (runPrices_count2R config pos steps).2⟩

/-- Witness for C5 at spec scenario 5: entry 100, stop 99, qty 1; a tick at
price 101 is exactly +1R, triggers the half-size exit once, and leaves
remainder 0.5. -/
theorem onPrice_partial_exit_discipline_witness :
    ((partialExit samplePosition (1/2) 101 "+1R partial").1.realizedR =
      samplePosition.realizedR + pnlPerUnit samplePosition 101 / riskPerUnit samplePosition *
        (min samplePosition.remainingQty (samplePosition.qty * (1/2)) / samplePosition.qty)) ∧
    ((partialExit samplePosition (1/2) 101 "+1R partial").1.remainingQty =
      samplePosition.remainingQty -
        min samplePosition.remainingQty (samplePosition.qty * (1/2))) ∧
    ((onPrice positionDefaults samplePosition 101 none none).1.took1R =
      (samplePosition.took1R || decide (1 ≤ rMultiple samplePosition 101))) ∧
    (countExits "+1R partial" (onPrice positionDefaults samplePosition 101 none none).2 = 1) ∧
    (countExits "+1R partial"
      (runPrices positionDefaults samplePosition [(101, none, none), (102, none, none)]).2 ≤ 1) :=
  ⟨(onPrice_partial_exit_discipline.1 samplePosition (1/2) 101 "+1R partial" (by norm_num
      [samplePosition])).1,
   ((onPrice_partial_exit_discipline.1 samplePosition (1/2) 101 "+1R partial" (by norm_num
      [samplePosition])).2.2 (by norm_num [samplePosition])).1,
   (onPrice_partial_exit_discipline.2.1 positionDefaults samplePosition 101 none none rfl).1,
   ((onPrice_partial_exit_discipline.2.2.1 positionDefaults samplePosition 101 none none).1.mpr
      ⟨rfl, rfl, by norm_num [rMultiple, pnlPerUnit, riskPerUnit, samplePosition],
        by norm_num [samplePosition]⟩),
   (onPrice_partial_exit_discipline.2.2.2 positionDefaults samplePosition
      [(101, none, none), (102, none, none)]).1⟩

/-- C6: once trailing has begun (took2R), a price tick advances the anchor to
the running extreme of candle high/low (or price) and ratchets the stop to
max(stop, anchor − dist) for Long and min(stop, anchor + dist) for Short with
dist = atrPct/100·entry·trailingAtrMultiple; along every onPrice sequence the
stop is monotonically non-decreasing for Long and non-increasing for Short. -/
theorem trailing_stop_monotone :
    (∀ (config : PositionManagerConfig) (pos : ManagedPosition) (price : ℚ) (hi lo : Option ℚ),
      pos.state = PositionLifecycleState.IN_POSITION → pos.took2R = true →
      (pos.side = Side.Long →
        (onPrice config pos price hi lo).1.trailingAnchor =
          max pos.trailingAnchor (hi.getD price) ∧
        (onPrice config pos price hi lo).1.stopPrice =
          max pos.stopPrice (max pos.trailingAnchor (hi.getD price) -
            pos.atrPct / 100 * pos.entryPrice * config.trailingAtrMultiple)) ∧
      (pos.side = Side.Short →
        (onPrice config pos price hi lo).1.trailingAnchor =
          min pos.trailingAnchor (lo.getD price) ∧
        (onPrice config pos price hi lo).1.stopPrice =
          min pos.stopPrice (min pos.trailingAnchor (lo.getD price) +
            pos.atrPct / 100 * pos.entryPrice * config.trailingAtrMultiple))) ∧
    (∀ (config : PositionManagerConfig) (pos : ManagedPosition) (price : ℚ) (hi lo : Option ℚ),
      (pos.side = Side.Long → pos.stopPrice ≤ (onPrice config pos price hi lo).1.stopPrice) ∧
      (pos.side = Side.Short → (onPrice config pos price hi lo).1.stopPrice ≤ pos.stopPrice)) ∧
    (∀ (config : PositionManagerConfig) (pos : ManagedPosition)
      (steps : List (ℚ × Option ℚ × Option ℚ)), pos.took2R = true →
      (pos.side = Side.Long → pos.stopPrice ≤ (runPrices config pos steps).1.stopPrice) ∧
      (pos.side = Side.Short → (runPrices config pos steps).1.stopPrice ≤ pos.stopPrice)) := by
  refine ⟨?_, onPrice_stop_mono, fun config pos steps _ => runPrices_stop_mono config pos steps⟩
  intro config pos price hi lo hstate htook
  have hX2 : (take2R (take1R pos price (rMultiple pos price)).1 price
      (rMultiple pos price)).1.took2R = true := by
    rw [take2R_took2R, take1R_took2R, htook]
    simp
  constructor
  · intro hside
    rw [onPrice_run config pos price hi lo hstate]
    have hXside : (take2R (take1R pos price (rMultiple pos price)).1 price
        (rMultiple pos price)).1.side = Side.Long := by rw [take2R_side, take1R_side, hside]
    have := updateTrailingStop_stop_long config
      (take2R (take1R pos price (rMultiple pos price)).1 price (rMultiple pos price)).1
      price hi lo hXside
    constructor
    · have h1 := this.1
      simp only [trailStage, hX2, if_pos] at *
      simpa using h1
    · have h2 := this.2
      simp only [trailStage, hX2, if_pos] at *
      simpa using h2
  · intro hside
    rw [onPrice_run config pos price hi lo hstate]
    have hXside : (take2R (take1R pos price (rMultiple pos price)).1 price
        (rMultiple pos price)).1.side = Side.Short := by rw [take2R_side, take1R_side, hside]
    have := updateTrailingStop_stop_short config
      (take2R (take1R pos price (rMultiple pos price)).1 price (rMultiple pos price)).1
      price hi lo hXside
    constructor
    · have h1 := this.1
      simp only [trailStage, hX2, if_pos] at *
      simpa using h1
    · have h2 := this.2
      simp only [trailStage, hX2, if_pos] at *
      simpa using h2

/-- Witness for C6 at spec scenario 5 after both exits: took2R, anchor 102,
a tick at 103 with candle high 103.5 ratchets the stop toward 102.5. -/
theorem trailing_stop_monotone_witness :
    (sampleTrailing.side = Side.Long →
      (onPrice positionDefaults sampleTrailing 103 (some (207/2)) none).1.trailingAnchor =
        max sampleTrailing.trailingAnchor ((some ((207 : ℚ)/2)).getD 103) ∧
      (onPrice positionDefaults sampleTrailing 103 (some (207/2)) none).1.stopPrice =
        max sampleTrailing.stopPrice
          (max sampleTrailing.trailingAnchor ((some ((207 : ℚ)/2)).getD 103) -
            sampleTrailing.atrPct / 100 * sampleTrailing.entryPrice *
              positionDefaults.trailingAtrMultiple)) ∧
    (sampleTrailing.side = Side.Long →
      sampleTrailing.stopPrice ≤
        (runPrices positionDefaults sampleTrailing [(103, some (207/2), none)]).1.stopPrice) :=
  ⟨(trailing_stop_monotone.1 positionDefaults sampleTrailing 103 (some (207/2)) none
      rfl rfl).1,
   (trailing_stop_monotone.2.2 positionDefaults sampleTrailing
      [(103, some (207/2), none)] rfl).1⟩

/-! ### Event-bus helper lemmas -/

theorem emit_flushing {E : Type} (handle : E → List E) (fuel : ℕ) (ev : E) (st : BusState E)
    (h : st.isFlushingQueue = true) :
    EventBus.emit handle fuel ev st = { st with queue := st.queue ++ [ev] } := by
  unfold EventBus.emit EventBus.flushQueue
  simp [h]

theorem foldl_emit_flushing {E : Type} (handle : E → List E) (fuel : ℕ) (evs : List E)
    (st : BusState E) (h : st.isFlushingQueue = true) :
    evs.foldl (fun s ev => EventBus.emit handle fuel ev s) st =
      { st with queue := st.queue ++ evs } := by
  induction evs generalizing st with
  | nil => simp
  | cons ev rest ih =>
    rw [List.foldl_cons, emit_flushing handle fuel ev st h,
      ih { st with queue := st.queue ++ [ev] } (by simpa using h)]
    simp

theorem drainLoop_spec {E : Type} (handle : E → List E) :
    ∀ (fuel : ℕ) (st : BusState E) (tr : List E), st.isFlushingQueue = true →
      EventBus.drainSpec handle fuel st.queue = some tr →
      EventBus.drainLoop handle fuel st = ⟨[], true, st.dispatched ++ tr⟩ := by
  intro fuel
  induction fuel with
  | zero =>
    rintro ⟨q, fl, d⟩ tr hf hs
    dsimp only at hf hs ⊢
    subst hf
    cases q with
    | nil =>
      simp only [EventBus.drainSpec, Option.some.injEq] at hs
      subst hs
      unfold EventBus.drainLoop
      simp
    | cons e rest => simp [EventBus.drainSpec] at hs
  | succ f ih =>
    rintro ⟨q, fl, d⟩ tr hf hs
    dsimp only at hf hs ⊢
    subst hf
    cases q with
    | nil =>
      simp only [EventBus.drainSpec, Option.some.injEq] at hs
      subst hs
      unfold EventBus.drainLoop
      simp
    | cons e rest =>
      simp only [EventBus.drainSpec] at hs
      obtain ⟨tr', hs', rfl⟩ := Option.map_eq_some'.mp hs
      unfold EventBus.drainLoop
      dsimp only
      rw [foldl_emit_flushing handle f (handle e) _ rfl,
        ih ⟨rest ++ handle e, true, d ++ [e]⟩ tr' rfl hs']
      simp

/-- C10: in queued-emit mode a top-level emit returns only after the queue is
fully drained: its dispatch log is exactly the FIFO drain order `drainSpec`
(re-entrant emissions appended at the back), the pending count is 0 when it
returns, the flusher flag is back to false, and any emit performed while a
flush is running (re-entrant emit) only appends to the same queue — it never
starts a second flusher. The `drainSpec ... = some tr` hypothesis says the
fuel bound suffices for the drain loop to terminate. -/
theorem eventbus_queued_fifo {E : Type} (handle : E → List E) (fuel : ℕ) (e : E)
    (d tr : List E) (h : EventBus.drainSpec handle fuel [e] = some tr) :
    (EventBus.emit handle fuel e ⟨[], false, d⟩ = ⟨[], false, d ++ tr⟩ ∧
     EventBus.getPendingCount (EventBus.emit handle fuel e ⟨[], false, d⟩) = 0) ∧
    (∀ (st : BusState E) (ev : E) (f : ℕ), st.isFlushingQueue = true →
      EventBus.emit handle f ev st = { st with queue := st.queue ++ [ev] }) := by
  have hmain : EventBus.emit handle fuel e ⟨[], false, d⟩ = ⟨[], false, d ++ tr⟩ := by
    unfold EventBus.emit EventBus.flushQueue
    rw [if_neg (by simp)]
    have hd := drainLoop_spec handle fuel ⟨[e], true, d⟩ tr rfl (by simpa using h)
    simp only [List.nil_append]
    rw [hd]
  exact ⟨⟨hmain, by rw [hmain]; rfl⟩, fun st ev f hf => emit_flushing handle f ev st hf⟩

/-- Witness for C10: handler effects 0 ↦ [1,2], 1 ↦ [3]; a single top-level
emit of 0 dispatches [0,1,2,3] in FIFO order and leaves an empty queue. -/
theorem eventbus_queued_fifo_witness :
    (EventBus.emit busHandleExample 5 0 ⟨[], false, []⟩ = ⟨[], false, [0, 1, 2, 3]⟩ ∧
     EventBus.getPendingCount (EventBus.emit busHandleExample 5 0 ⟨[], false, []⟩) = 0) ∧
    (∀ (st : BusState ℕ) (ev : ℕ) (f : ℕ), st.isFlushingQueue = true →
      EventBus.emit busHandleExample f ev st = { st with queue := st.queue ++ [ev] }) :=
  eventbus_queued_fifo busHandleExample 5 0 [] [0, 1, 2, 3] (by decide)

/-! ### Ingest helper lemmas -/

theorem integrityLoop_none (intervalMs : ℕ) :
    ∀ (cs : List Candle) (seen : List ℕ) (prev : Option ℕ),
      integrityLoop intervalMs seen prev cs = none →
      (cs.map (·.closeTime)).Nodup ∧
      (∀ t ∈ cs.map (·.closeTime), t ∉ seen) ∧
      List.Chain' (fun a b => a ≤ b ∧ b - a ≤ intervalMs)
        (prev.toList ++ cs.map (·.closeTime)) := by
  intro cs
  induction cs with
  | nil =>
    intro seen prev _
    refine ⟨List.nodup_nil, by simp, ?_⟩
    cases prev <;> simp
  | cons c rest ih =>
    intro seen prev h
    unfold integrityLoop at h
    dsimp only at h
    by_cases hmem : c.closeTime ∈ seen
    · rw [if_pos hmem] at h
      cases h
    · rw [if_neg hmem] at h
      cases prev with
      | none =>
        obtain ⟨hnd, hni, hch⟩ := ih (c.closeTime :: seen) (some c.closeTime) h
        refine ⟨?_, ?_, ?_⟩
        · refine List.Nodup.cons ?_ hnd
          intro hmem'
          exact (hni _ hmem') (List.mem_cons_self _ _)
        · intro t ht
          rcases List.mem_cons.mp ht with rfl | ht'
          · exact hmem
          · exact fun hs => (hni t ht') (List.mem_cons_of_mem _ hs)
        · simpa using hch
      | some p =>
        dsimp only at h
        by_cases hlt : c.closeTime < p
        · rw [if_pos hlt] at h
          cases h
        · rw [if_neg hlt] at h
          by_cases hgap : intervalMs < c.closeTime - p
          · rw [if_pos hgap] at h
            cases h
          · rw [if_neg hgap] at h
            obtain ⟨hnd, hni, hch⟩ := ih (c.closeTime :: seen) (some c.closeTime) h
            refine ⟨?_, ?_, ?_⟩
            · refine List.Nodup.cons ?_ hnd
              intro hmem'
              exact (hni _ hmem') (List.mem_cons_self _ _)
            · intro t ht
              rcases List.mem_cons.mp ht with rfl | ht'
              · exact hmem
              · exact fun hs => (hni t ht') (List.mem_cons_of_mem _ hs)
            · simp only [Option.toList_some, List.singleton_append, List.map_cons]
              rw [List.chain'_cons]
              exact ⟨⟨not_lt.mp hlt, not_lt.mp hgap⟩, by simpa using hch⟩

/-- C7: a normalized batch containing a duplicate closeTime, an out-of-order
closeTime, or a gap (adjacent delta above the timeframe interval) makes
`checkIntegrity` report an error; on any such error the poll persists no
candles, writes one audit row with category `market_data_integrity`, and
publishes exactly one `audit.event` carrying the failure message; the
concrete 1m batch with closeTimes 60 000 and 240 000 yields the message
"Gap detected between candles: 60000 -> 240000". -/
theorem poll_integrity_failure :
    (∀ (candles : List Candle) (timeframe : String),
      (¬ (candles.map (·.closeTime)).Nodup ∨
        ¬ List.Chain' (fun a b => a ≤ b ∧ b - a ≤ timeframeToMs timeframe)
          (candles.map (·.closeTime))) →
      ∃ reason, checkIntegrity candles timeframe = some reason) ∧
    (∀ (db : List (String × String × ℕ)) (now : ℕ) (timeframe : String)
      (normalized : List Candle) (reason : String),
      checkIntegrity normalized timeframe = some reason →
      pollSymbol db now timeframe normalized =
        { persisted := []
          auditRows := [{ category := "market_data_integrity", action := "poll_failed",
                          actor := "market_data_service", reason := reason }]
          busEvents := [BusEvent.auditEvent "marketData.integrity" "error" reason] }) ∧
    checkIntegrity [gapCandle1, gapCandle2] "1m" =
      some "Gap detected between candles: 60000 -> 240000" := by
  refine ⟨?_, ?_, by decide⟩
  · intro candles timeframe hbad
    cases hc : checkIntegrity candles timeframe with
    | some r => exact ⟨r, rfl⟩
    | none =>
      obtain ⟨hnd, _, hch⟩ := integrityLoop_none (timeframeToMs timeframe) candles [] none hc
      simp only [Option.toList_none, List.nil_append] at hch
      rcases hbad with hbad | hbad
      · exact absurd hnd hbad
      · exact absurd hch hbad
  · intro db now timeframe normalized reason h
    unfold pollSymbol
    rw [h]

/-- Witness for C7 at the concrete gap batch: the poll persists nothing and
publishes exactly the one gap audit event. -/
theorem poll_integrity_failure_witness :
    pollSymbol [] 1000000 "1m" [gapCandle1, gapCandle2] =
      { persisted := []
        auditRows := [{ category := "market_data_integrity", action := "poll_failed",
                        actor := "market_data_service",
                        reason := "Gap detected between candles: 60000 -> 240000" }]
        busEvents := [BusEvent.auditEvent "marketData.integrity" "error"
          "Gap detected between candles: 60000 -> 240000"] } :=
  poll_integrity_failure.2.1 [] 1000000 "1m" [gapCandle1, gapCandle2]
    "Gap detected between candles: 60000 -> 240000" poll_integrity_failure.2.2

/-! ### Canonical-hashing helper lemmas -/

theorem charListLe_total : ∀ a b, charListLe a b = true ∨ charListLe b a = true := by
  intro a
  induction a with
  | nil => intro b; left; rfl
  | cons x xs ih =>
    intro b
    cases b with
    | nil => right; rfl
    | cons y ys =>
      simp only [charListLe]
      by_cases h1 : x.toNat < y.toNat
      · left; rw [if_pos h1]
      · by_cases h2 : y.toNat < x.toNat
        · right; rw [if_pos h2]
        · rw [if_neg h1, if_neg h2, if_neg h2, if_neg h1]
          exact ih ys

theorem charListLe_trans : ∀ a b c, charListLe a b = true → charListLe b c = true →
    charListLe a c = true := by
  intro a
  induction a with
  | nil => intro b c _ _; rfl
  | cons x xs ih =>
    intro b c hab hbc
    cases b with
    | nil => simp [charListLe] at hab
    | cons y ys =>
      cases c with
      | nil => simp [charListLe] at hbc
      | cons z zs =>
        simp only [charListLe] at hab hbc ⊢
        by_cases hxy : x.toNat < y.toNat
        · rw [if_pos hxy] at hab
          by_cases hyz : y.toNat < z.toNat
          · rw [if_pos (by omega : x.toNat < z.toNat)]
          · by_cases hzy : z.toNat < y.toNat
            · rw [if_neg hyz, if_pos hzy] at hbc
              simp at hbc
            · rw [if_pos (by omega : x.toNat < z.toNat)]
        · by_cases hyx : y.toNat < x.toNat
          · rw [if_neg hxy, if_pos hyx] at hab
            simp at hab
          · rw [if_neg hxy, if_neg hyx] at hab
            by_cases hyz : y.toNat < z.toNat
            · rw [if_pos (by omega : x.toNat < z.toNat)]
            · by_cases hzy : z.toNat < y.toNat
              · rw [if_neg hyz, if_pos hzy] at hbc
                simp at hbc
              · rw [if_neg hyz, if_neg hzy] at hbc
                rw [if_neg (by omega : ¬ x.toNat < z.toNat),
                  if_neg (by omega : ¬ z.toNat < x.toNat)]
                exact ih ys zs hab hbc

instance {α : Type} : IsTotal (String × α) (fun a b => keyLe a.1 b.1 = true) :=
  ⟨fun a b => charListLe_total a.1.data b.1.data⟩

instance {α : Type} : IsTrans (String × α) (fun a b => keyLe a.1 b.1 = true) :=
  ⟨fun _ _ _ hab hbc => charListLe_trans _ _ _ hab hbc⟩

theorem sortByKey_idem {α : Type} (l : List (String × α)) :
    sortByKey (sortByKey l) = sortByKey l := by
  unfold sortByKey
  exact (List.sorted_insertionSort (fun a b => keyLe a.1 b.1 = true) l).insertionSort_eq

theorem sortByKey_map_snd {α β : Type} (g : α → β) (l : List (String × α)) :
    sortByKey (l.map (fun kv => (kv.1, g kv.2))) =
      (sortByKey l).map (fun kv => (kv.1, g kv.2)) := by
  unfold sortByKey
  exact (List.map_insertionSort (fun a b => keyLe a.1 b.1 = true)
    (fun a b => keyLe a.1 b.1 = true) (fun kv => (kv.1, g kv.2)) l
    (fun a _ b _ => Iff.rfl)).symm

theorem ssEntries_eq_map : ∀ (l : List (String × JVal)),
    ssEntries l = l.map (fun kv => (kv.1, stableStringify kv.2))
  | [] => rfl
  | kv :: rest => by rw [ssEntries, List.map_cons, ssEntries_eq_map rest]

theorem ssEntries_sortByKey (l : List (String × JVal)) :
    ssEntries (sortByKey l) = sortByKey (ssEntries l) := by
  rw [ssEntries_eq_map, ssEntries_eq_map]
  exact (sortByKey_map_snd stableStringify l).symm

mutual

theorem ss_canon : ∀ (v : JVal), stableStringify (canon v) = stableStringify v
  | JVal.null => rfl
  | JVal.bool b => by cases b <;> rfl
  | JVal.num _ => rfl
  | JVal.str _ => rfl
  | JVal.arr items => by
    simp only [canon, stableStringify]
    rw [ssList_canon items]
  | JVal.obj entries => by
    simp only [canon, stableStringify]
    rw [ssEntries_sortByKey, sortByKey_idem, ssEntries_canon entries]
termination_by structural v => v

theorem ssList_canon : ∀ (l : List JVal), ssList (canonList l) = ssList l
  | [] => rfl
  | v :: rest => by
    simp only [canonList, ssList]
    rw [ss_canon v, ssList_canon rest]
termination_by structural l => l

theorem ssEntries_canon : ∀ (l : List (String × JVal)), ssEntries (canonEntries l) = ssEntries l
  | [] => rfl
  | kv :: rest => by
    simp only [canonEntries, ssEntries]
    rw [ss_canon kv.2, ssEntries_canon rest]
termination_by structural l => l

end

/-- C9: hashObject is invariant under reordering of object keys at every
nesting level — values with equal canonical forms (object keys sorted at
every level, arrays untouched) hash identically; in particular
hash({x:1,y:{a:2,b:3}}) = hash({y:{b:3,a:2},x:1}); and it is sensitive to
array order: [1,2] and [2,1] hash differently. -/
theorem hashObject_key_order_invariant :
    (∀ v w : JVal, canon v = canon w → hashObject v = hashObject w) ∧
    hashObject hashExample1 = hashObject hashExample2 ∧
    hashObject (JVal.arr [JVal.num 1, JVal.num 2]) ≠
      hashObject (JVal.arr [JVal.num 2, JVal.num 1]) := by
  have hkey : ∀ v w : JVal, canon v = canon w → hashObject v = hashObject w := by
    intro v w h
    unfold hashObject
    rw [← ss_canon v, ← ss_canon w, h]
  exact ⟨hkey, hkey _ _ (by rfl), by decide⟩

/-- Witness for C9: the invariance theorem applied at the spec's concrete
pair of key-reordered objects. -/
theorem hashObject_key_order_invariant_witness :
    hashObject hashExample1 = hashObject hashExample2 :=
  hashObject_key_order_invariant.1 hashExample1 hashExample2 (by rfl)

/-! ### Execution-engine helper lemmas -/

@[simp] theorem persistFillAndPosition_fst (db : ExecDb) (orderId : ℕ) (plan : TradePlan)
    (qty fp : ℚ) :
    (persistFillAndPosition db orderId plan qty fp).1 =
      ExecuteResult.FILLED (toString orderId) fp := rfl

@[simp] theorem updateOrder_orders (db : ExecDb) (oid : ℕ) (f : OrderRow → OrderRow) :
    (updateOrder db oid f).orders = db.orders.map (fun r => if r.id = oid then f r else r) := rfl

@[simp] theorem persistFillAndPosition_orders (db : ExecDb) (orderId : ℕ) (plan : TradePlan)
    (qty fp : ℚ) :
    (persistFillAndPosition db orderId plan qty fp).2.orders =
      db.orders.map (fun r => if r.id = orderId then { r with status := ExecOrderStatus.FILLED }
        else r) := rfl

@[simp] theorem newOrderRow_externalId (db : ExecDb) (plan : TradePlan) (qty : ℚ)
    (st : ExecOrderStatus) : (newOrderRow db plan qty st).externalId = executionKey plan := rfl

@[simp] theorem insertOrderRow_orders (db : ExecDb) (row : OrderRow) :
    (insertOrderRow db row).orders = db.orders ++ [row] := rfl

theorem map_exists_key (g : OrderRow → OrderRow) (hg : ∀ r, (g r).externalId = r.externalId)
    (l : List OrderRow) (key : String) (h : ∃ r ∈ l, r.externalId = key) :
    ∃ r ∈ l.map g, r.externalId = key := by
  obtain ⟨r0, hmem, hkey⟩ := h
  exact ⟨g r0, List.mem_map_of_mem g hmem, by rw [hg r0]; exact hkey⟩

theorem map2_exists_key (g1 g2 : OrderRow → OrderRow)
    (hg1 : ∀ r, (g1 r).externalId = r.externalId) (hg2 : ∀ r, (g2 r).externalId = r.externalId)
    (l : List OrderRow) (key : String) (h : ∃ r ∈ l, r.externalId = key) :
    ∃ r ∈ (l.map g1).map g2, r.externalId = key :=
  map_exists_key g2 hg2 _ _ (map_exists_key g1 hg1 l key h)

theorem ite_update_externalId (oid : ℕ) (f : OrderRow → OrderRow)
    (hf : ∀ r, (f r).externalId = r.externalId) (r : OrderRow) :
    ((if r.id = oid then f r else r)).externalId = r.externalId := by
  split_ifs
  · exact hf r
  · rfl

theorem execute_records_key (cfg : ExecutionConfig) (env : ExchangeEnv) (plan : TradePlan)
    (qty : ℚ) (db : ExecDb)
    (hnone : db.orders.find? (fun r => r.externalId = executionKey plan) = none) :
    ((∃ oid fp, (execute cfg env plan qty db).1 = ExecuteResult.FILLED oid fp) ∨
     (∃ oid rsn, (execute cfg env plan qty db).1 = ExecuteResult.CANCELED oid rsn)) ∧
    (∃ r ∈ (execute cfg env plan qty db).2.1.orders, r.externalId = executionKey plan) ∧
    (cfg.fallbackMode = FallbackMode.MARKET → (execute cfg env plan qty db).2.2 = 1) ∧
    (execute cfg env plan qty db).2.2 ≤ 2 := by
  have hbase : ∃ r ∈ db.orders ++ [newOrderRow db plan qty env.limit.status],
      r.externalId = executionKey plan :=
    ⟨newOrderRow db plan qty env.limit.status,
      List.mem_append_right _ (List.mem_singleton_self _), rfl⟩
  have hpres : ∀ (st : ExecOrderStatus),
      ∀ r : OrderRow, (({ r with status := st } : OrderRow)).externalId = r.externalId :=
    fun _ _ => rfl
  unfold execute
  dsimp only
  rw [hnone]
  dsimp only
  by_cases h1 : env.limit.status = ExecOrderStatus.FILLED
  · rw [if_pos h1]
    refine ⟨Or.inl ⟨_, _, rfl⟩, ?_, fun _ => rfl, by simp⟩
    simp only [persistFillAndPosition_orders, insertOrderRow_orders]
    exact map_exists_key _ (fun r => ite_update_externalId _ _ (hpres _) r) _ _ hbase
  · rw [if_neg h1]
    by_cases h2 : env.statusAfterSleep.status = ExecOrderStatus.FILLED
    · rw [if_pos h2]
      refine ⟨Or.inl ⟨_, _, rfl⟩, ?_, fun _ => rfl, by simp⟩
      simp only [persistFillAndPosition_orders, insertOrderRow_orders]
      exact map_exists_key _ (fun r => ite_update_externalId _ _ (hpres _) r) _ _ hbase
    · rw [if_neg h2]
      by_cases h3 : env.confirmation = false
      · rw [if_pos h3]
        refine ⟨Or.inr ⟨_, _, rfl⟩, ?_, fun _ => rfl, by simp⟩
        simp only [updateOrder_orders, insertOrderRow_orders]
        exact map_exists_key _ (fun r => ite_update_externalId _ _ (hpres _) r) _ _ hbase
      · rw [if_neg h3]
        cases hm : cfg.fallbackMode with
        | MARKET =>
          refine ⟨Or.inl ⟨_, _, rfl⟩, ?_, fun _ => rfl, by simp⟩
          simp only [persistFillAndPosition_orders, updateOrder_orders, insertOrderRow_orders]
          refine map2_exists_key _ _ ?_ ?_ _ _ hbase
          · exact fun r => by split_ifs <;> rfl
          · exact fun r => by split_ifs <;> rfl
        | REPLACE_LIMIT =>
          dsimp only
          by_cases h4 : env.replacement.status ≠ ExecOrderStatus.FILLED
          · rw [if_pos h4]
            refine ⟨Or.inr ⟨_, _, rfl⟩, ?_, fun hc => absurd hc (by decide), by simp⟩
            simp only [updateOrder_orders, insertOrderRow_orders]
            exact map_exists_key _ (fun r => ite_update_externalId _ _ (hpres _) r) _ _ hbase
          · rw [if_neg h4]
            refine ⟨Or.inl ⟨_, _, rfl⟩, ?_, fun hc => absurd hc (by decide), by simp⟩
            simp only [persistFillAndPosition_orders, updateOrder_orders, insertOrderRow_orders]
            refine map2_exists_key _ _ ?_ ?_ _ _ hbase
            · exact fun r => by split_ifs <;> rfl
            · exact fun r => by split_ifs <;> rfl

theorem execute_skips_existing (cfg : ExecutionConfig) (env : ExchangeEnv) (plan : TradePlan)
    (qty : ℚ) (db : ExecDb)
    (hsome : ∃ r ∈ db.orders, r.externalId = executionKey plan) :
    (∃ oid, (execute cfg env plan qty db).1 =
      ExecuteResult.SKIPPED "plan already executed" oid) ∧
    (execute cfg env plan qty db).2.1 = db ∧ (execute cfg env plan qty db).2.2 = 0 := by
  obtain ⟨r0, hmem, hkey⟩ := hsome
  have hfind : (db.orders.find? (fun r => r.externalId = executionKey plan)).isSome := by
    rw [List.find?_isSome]
    exact ⟨r0, hmem, by simp [hkey]⟩
  obtain ⟨r1, hr1⟩ := Option.isSome_iff_exists.mp hfind
  unfold execute
  dsimp only
  rw [hr1]
  exact ⟨⟨_, rfl⟩, rfl, rfl⟩

/-- C1 (counterexample): as stated the claim is false. In REPLACE_LIMIT
fallback mode, a single `execute` call on a plan whose limit order stays open
places TWO exchange limit orders (the original and the replacement), so two
back-to-back calls with the same plan place 2 limit orders in total, not at
most one. -/
theorem execute_two_limit_orders_counterexample :
    (execute replCfg envOpenThenReplace samplePlan 1 emptyDb).2.2 +
      (execute replCfg envOpenThenReplace samplePlan 1
        (execute replCfg envOpenThenReplace samplePlan 1 emptyDb).2.1).2.2 = 2 ∧
    ¬ ((execute replCfg envOpenThenReplace samplePlan 1 emptyDb).2.2 +
      (execute replCfg envOpenThenReplace samplePlan 1
        (execute replCfg envOpenThenReplace samplePlan 1 emptyDb).2.1).2.2 ≤ 1) := by
  have hfirst : (execute replCfg envOpenThenReplace samplePlan 1 emptyDb).2.2 = 2 := by
    rfl
  have hrec := execute_records_key replCfg envOpenThenReplace samplePlan 1 emptyDb rfl
  have hskip := execute_skips_existing replCfg envOpenThenReplace samplePlan 1
    (execute replCfg envOpenThenReplace samplePlan 1 emptyDb).2.1 hrec.2.1
  rw [hfirst, hskip.2.2]
  exact ⟨rfl, by omega⟩

/-- C1 (amended): calling `execute` twice with plans hashing to the same
execution key is idempotent. The first call on a database with no order under
the key proceeds (FILLED or CANCELED) and records an order row whose
externalId is the key; it calls placeLimit exactly once when fallbackMode is
MARKET, and at most twice overall (REPLACE_LIMIT may place a replacement
limit order). The second call returns SKIPPED "plan already executed",
leaves the database unchanged, and calls placeLimit zero times. -/
theorem execute_idempotent_skip (cfg : ExecutionConfig) (env1 env2 : ExchangeEnv)
    (plan1 plan2 : TradePlan) (qty1 qty2 : ℚ) (db : ExecDb)
    (hnone : db.orders.find? (fun r => r.externalId = executionKey plan1) = none)
    (hkey : executionKey plan2 = executionKey plan1) :
    ((∃ oid fp, (execute cfg env1 plan1 qty1 db).1 = ExecuteResult.FILLED oid fp) ∨
     (∃ oid rsn, (execute cfg env1 plan1 qty1 db).1 = ExecuteResult.CANCELED oid rsn)) ∧
    (∃ r ∈ (execute cfg env1 plan1 qty1 db).2.1.orders,
      r.externalId = executionKey plan1) ∧
    (cfg.fallbackMode = FallbackMode.MARKET →
      (execute cfg env1 plan1 qty1 db).2.2 +
        (execute cfg env2 plan2 qty2 (execute cfg env1 plan1 qty1 db).2.1).2.2 = 1) ∧
    (execute cfg env1 plan1 qty1 db).2.2 +
      (execute cfg env2 plan2 qty2 (execute cfg env1 plan1 qty1 db).2.1).2.2 ≤ 2 ∧
    (∃ oid, (execute cfg env2 plan2 qty2 (execute cfg env1 plan1 qty1 db).2.1).1 =
      ExecuteResult.SKIPPED "plan already executed" oid) ∧
    (execute cfg env2 plan2 qty2 (execute cfg env1 plan1 qty1 db).2.1).2.1 =
      (execute cfg env1 plan1 qty1 db).2.1 ∧
    (execute cfg env2 plan2 qty2 (execute cfg env1 plan1 qty1 db).2.1).2.2 = 0 := by
  have h1 := execute_records_key cfg env1 plan1 qty1 db hnone
  have hex2 : ∃ r ∈ (execute cfg env1 plan1 qty1 db).2.1.orders,
      r.externalId = executionKey plan2 := by
    rw [hkey]
    exact h1.2.1
  have h2 := execute_skips_existing cfg env2 plan2 qty2
    (execute cfg env1 plan1 qty1 db).2.1 hex2
  refine ⟨h1.1, h1.2.1, ?_, ?_, h2.1, h2.2.1, h2.2.2⟩
  · intro hm
    have := h1.2.2.1 hm
    omega
  · have := h1.2.2.2
    omega

/-- C2 (code bug): `StrategyPlanner.normalizePlan` does clamp confidence and
bump `expiresAt` to `max(now, expiresAt)`, but it never overwrites
`paramsVersionId`: for every plan the normalized plan carries the engine's
hard-coded value (here "baseline") through to emission, so a plan produced
while the active params version is "42" is still published with
paramsVersionId "baseline", contradicting the claimed stamping step. -/
theorem normalizePlan_keeps_engine_paramsVersionId :
    (normalizePlan samplePlan 1734303600001 (3/5)).paramsVersionId = "baseline" ∧
    "baseline" ≠ "42" ∧
    (∀ (plan : TradePlan) (now : ℕ) (defConf : ℚ),
      (normalizePlan plan now defConf).paramsVersionId = plan.paramsVersionId) ∧
    (normalizePlan samplePlan 1734303600001 (3/5)).confidence = some (1/2) ∧
    (normalizePlan samplePlan 1734303600001 (3/5)).expiresAt = 1734303600001 := by
  refine ⟨rfl, by decide, fun plan now defConf => rfl, ?_, ?_⟩
  · show some (max 0 (min 1 ((1 : ℚ)/2))) = some (1/2)
    norm_num
  · show max 1734303600001 1734303600000 = 1734303600001
    norm_num

/-- Witness for C1: with the default config (MARKET fallback) and an exchange
that fills the limit order immediately, the two-call idempotency conclusion
holds at the sample plan on an empty database. -/
theorem execute_idempotent_skip_witness :
    ((∃ oid fp, execFirst.1 = ExecuteResult.FILLED oid fp) ∨
     (∃ oid rsn, execFirst.1 = ExecuteResult.CANCELED oid rsn)) ∧
    (∃ r ∈ execFirst.2.1.orders, r.externalId = executionKey samplePlan) ∧
    (execDefaults.fallbackMode = FallbackMode.MARKET →
      execFirst.2.2 + execSecond.2.2 = 1) ∧
    execFirst.2.2 + execSecond.2.2 ≤ 2 ∧
    (∃ oid, execSecond.1 = ExecuteResult.SKIPPED "plan already executed" oid) ∧
    execSecond.2.1 = execFirst.2.1 ∧
    execSecond.2.2 = 0 :=
  execute_idempotent_skip execDefaults envImmediateFill envImmediateFill
    samplePlan samplePlan 1 1 emptyDb rfl rfl

end TradingBot
